import Mathlib

set_option maxRecDepth 100000
set_option maxHeartbeats 1000000

/-!
Verification of the Text-to-SQL translation pipeline (src/src/helper.py,
class TextToSQLConverter).

The pipeline is embedded shallowly:

* The spaCy dependency parser is an external capability.  Its output is
  modelled by the type Doc: the (lower-cased) input text together with the
  token sequence, where each token carries its text, its dependency tag
  (token.dep_) and the texts of its right dependents (token.rights).
  convert_to_sql lower-cases the raw text before parsing, so Doc.text is the
  lower-cased input text.

* Python str operations are modelled over List Char through the data field of
  String: pyLower models str.lower, pyStrip models str.strip, pySplitStr
  models str.split(pattern), strContains models the substring test
  (pattern in s), Nat.repr models str(int).  The three regular expressions of
  helper.py (group-by, order-by, limit) are modelled by direct scanners with
  Python re semantics: leftmost match, alternation in declared order, greedy
  repetition (for these patterns greedy never backtracks because adjacent
  pieces use disjoint character classes).

* Python sets (components.select.tables / columns) are modelled as
  duplicate-free lists in insertion order.  CPython iterates a set in an
  unspecified, hash-seed dependent order; the builder therefore takes the
  iteration orders of the two sets as explicit parameters (tablesEnum,
  colsEnum), constrained in the theorems to be permutations of the
  accumulated sets.

* Python exceptions are modelled by Except String: the IndexError raised by
  tables[0] on an empty table list, the KeyError raised by an undeclared
  relationship lookup and the IndexError raised by values[1] in the BETWEEN
  branch become Except.error; convert_to_sql re-raises any of them as
  ValueError("Failed to convert text to SQL: ..."), modelled by prefixing the
  message.
-/

/-! ## String utilities (Python string semantics over List Char) -/

/-- Model of Python str.lower (character-wise lowering). -/
def pyLower (s : String) : String := String.mk (s.data.map Char.toLower)

/-- Model of Python str.upper (character-wise raising). -/
def pyUpper (s : String) : String := String.mk (s.data.map Char.toUpper)

/-- Single-quote character, kept out of string literals. -/
def sqt : String := String.mk [Char.ofNat 39]

/-- Check whether pat occurs as a contiguous sublist of l. -/
def hasSub (pat : List Char) : List Char → Bool
  | [] => pat.isEmpty
  | c :: rest => pat.isPrefixOf (c :: rest) || hasSub pat rest

/-- Model of the Python substring test: pat in s. -/
def strContains (s pat : String) : Bool := hasSub pat.data s.data

/-- Check whether suf is a suffix of l. -/
def endsWithL (suf l : List Char) : Bool := decide (l.drop (l.length - suf.length) = suf)

/-- Model of the Python suffix test used to state claims about the tail of the SQL string. -/
def strEndsWith (s suf : String) : Bool := endsWithL suf.data s.data

/-- Drop trailing whitespace. -/
def trimRightL (l : List Char) : List Char := (l.reverse.dropWhile Char.isWhitespace).reverse

/-- Model of Python str.strip on character lists. -/
def pyStripL (l : List Char) : List Char := trimRightL (l.dropWhile Char.isWhitespace)

/-- Model of Python str.strip. -/
def pyStrip (s : String) : String := String.mk (pyStripL s.data)

/-- Fuel-indexed splitter core; the fuel (initially the length of the list)
only serves structural recursion and is never exhausted. -/
def pySplitAux (pat : List Char) : Nat → List Char → List (List Char)
  | _, [] => [[]]
  | 0, l => [l]
  | fuel + 1, c :: rest =>
    if 0 < pat.length ∧ pat.isPrefixOf (c :: rest) then
      [] :: pySplitAux pat fuel (List.drop (pat.length - 1) rest)
    else
      match pySplitAux pat fuel rest with
      | [] => [[c]]
      | p :: ps => (c :: p) :: ps

/-- Model of Python str.split(pat) on character lists: split on each
non-overlapping occurrence of pat, scanning left to right. -/
def pySplitL (pat l : List Char) : List (List Char) := pySplitAux pat l.length l

/-- Model of Python s.split(pat). -/
def pySplitStr (s pat : String) : List String :=
  (pySplitL pat.data s.data).map String.mk

/-- Model of Python int() on a digit string. -/
def digitsToNat (ds : List Char) : Nat :=
  ds.foldl (fun a c => 10 * a + (c.toNat - 48)) 0

/-- Word character class of the regular expressions (ASCII view of re \w). -/
def isWordChar (c : Char) : Bool := c.isAlphanum || c = '_'

/-- Model of Python set.add on an insertion-ordered duplicate-free list. -/
def insertSet (l : List String) (x : String) : List String :=
  if x ∈ l then l else l ++ [x]

/-! ## Regular-expression scanners

helper.py uses three regexes; each is modelled by a scanner with re.search /
re.findall semantics (leftmost match, alternation order, greedy repetition).
-/

/-- Match the pattern by\s+(\w+) at the head of l; on success return the
captured word and the remaining characters after the match. -/
def matchByAt (l : List Char) : Option (List Char × List Char) :=
  if ("by".data).isPrefixOf l then
    let r := l.drop 2
    if (r.takeWhile Char.isWhitespace).isEmpty then none
    else
      let r2 := r.dropWhile Char.isWhitespace
      let w := r2.takeWhile isWordChar
      if w.isEmpty then none else some (w, r2.drop w.length)
  else none

/-- Scanner core for re.findall(r"by\s+(\w+)", text): fuel-indexed left-to-right
scan collecting non-overlapping matches. -/
def scanByAux : Nat → List Char → List (List Char)
  | 0, _ => []
  | _ + 1, [] => []
  | fuel + 1, c :: rest =>
    match matchByAt (c :: rest) with
    | some (w, remaining) => w :: scanByAux fuel remaining
    | none => scanByAux fuel rest

/-- Model of re.findall(r"by\s+(\w+)", text) returning the captured words. -/
def scanBy (s : String) : List String :=
  (scanByAux s.data.length s.data).map String.mk

/-- Match the order-by regex
(?:order|sort)(?:ed)?\s+by\s+(\w+)\s*(desc(?:ending)?|asc(?:ending)?)?
at the head of l, returning the captured column word and optional direction
modifier (group 2). -/
def matchOrderAt (l : List Char) : Option (String × Option String) :=
  let afterVerb :=
    if ("order".data).isPrefixOf l then some (l.drop 5)
    else if ("sort".data).isPrefixOf l then some (l.drop 4)
    else none
  match afterVerb with
  | none => none
  | some r0 =>
    let r1 := if ("ed".data).isPrefixOf r0 then r0.drop 2 else r0
    if (r1.takeWhile Char.isWhitespace).isEmpty then none
    else
      let r2 := r1.dropWhile Char.isWhitespace
      if ("by".data).isPrefixOf r2 then
        let r3 := r2.drop 2
        if (r3.takeWhile Char.isWhitespace).isEmpty then none
        else
          let r4 := r3.dropWhile Char.isWhitespace
          let w := r4.takeWhile isWordChar
          if w.isEmpty then none
          else
            let r5 := (r4.drop w.length).dropWhile Char.isWhitespace
            let m : Option (List Char) :=
              if ("descending".data).isPrefixOf r5 then some "descending".data
              else if ("desc".data).isPrefixOf r5 then some "desc".data
              else if ("ascending".data).isPrefixOf r5 then some "ascending".data
              else if ("asc".data).isPrefixOf r5 then some "asc".data
              else none
            some (String.mk w, m.map String.mk)
      else none

/-- Leftmost-match scan for the order-by regex (re.search). -/
def orderSearchAux : List Char → Option (String × Option String)
  | [] => none
  | c :: rest =>
    match matchOrderAt (c :: rest) with
    | some r => some r
    | none => orderSearchAux rest

/-- Model of re.search of the order-by regex over the whole text. -/
def orderSearch (s : String) : Option (String × Option String) :=
  orderSearchAux s.data

/-- Match the limit regex (?:top|first|limit)\s+(\d+) at the head of l. -/
def matchLimitAt (l : List Char) : Option Nat :=
  let rest :=
    if ("top".data).isPrefixOf l then some (l.drop 3)
    else if ("first".data).isPrefixOf l then some (l.drop 5)
    else if ("limit".data).isPrefixOf l then some (l.drop 5)
    else none
  match rest with
  | none => none
  | some r =>
    if (r.takeWhile Char.isWhitespace).isEmpty then none
    else
      let r2 := r.dropWhile Char.isWhitespace
      let ds := r2.takeWhile Char.isDigit
      if ds.isEmpty then none else some (digitsToNat ds)

/-- Leftmost-match scan for the limit regex (re.search). -/
def limitSearchAux : List Char → Option Nat
  | [] => none
  | c :: rest =>
    match matchLimitAt (c :: rest) with
    | some n => some n
    | none => limitSearchAux rest

/-- Model of re.search of the limit regex over the whole text. -/
def limitSearch (s : String) : Option Nat := limitSearchAux s.data

/-! ## Schema registry (the hardcoded dictionaries of TextToSQLConverter.__init__) -/

/-- Table names, in the insertion order of the self.table_columns dict. -/
def tableNames : List String := ["employees", "departments", "projects"]

/-- Column names of each table, in dict insertion order.  helper.py only ever
iterates the keys of self.table_columns[t] or tests key membership, so the
per-column metadata dicts are not part of the embedding. -/
def tableColumns (t : String) : List String :=
  if t = "employees" then
    ["employee_id", "name", "department", "salary", "hire_date", "role", "email"]
  else if t = "departments" then
    ["department_id", "name", "budget", "location", "head_id"]
  else if t = "projects" then
    ["project_id", "name", "department_id", "start_date", "end_date", "budget", "status"]
  else []

/-- Relationship metadata: join type, optional through-table, join keys. -/
structure RelInfo where
  rtype : String
  through : Option String
  keys : String × String
deriving DecidableEq

/-- Model of self.table_relationships as a pair lookup. -/
def table_relationships (a b : String) : Option RelInfo :=
  if a = "employees" then
    if b = "departments" then some ⟨"many_to_one", none, ("department", "name")⟩
    else if b = "projects" then some ⟨"many_to_many", some "departments", ("department", "name")⟩
    else none
  else if a = "departments" then
    if b = "employees" then some ⟨"one_to_many", none, ("name", "department")⟩
    else if b = "projects" then some ⟨"one_to_many", none, ("department_id", "department_id")⟩
    else none
  else if a = "projects" then
    if b = "departments" then some ⟨"many_to_one", none, ("department_id", "department_id")⟩
    else if b = "employees" then some ⟨"many_to_many", some "departments", ("department_id", "department_id")⟩
    else none
  else none

/-- Aggregation keyword table self.patterns["aggregate"], in dict order. -/
def aggregatePatterns : List (String × List String) :=
  [("avg", ["average", "mean", "typical"]),
   ("sum", ["total", "sum", "combined"]),
   ("count", ["count", "number of", "how many"]),
   ("max", ["highest", "maximum", "most", "top"]),
   ("min", ["lowest", "minimum", "least", "bottom"])]

/-- Condition operator table self.patterns["conditions"], in dict order. -/
def conditionPatterns : List (String × List String) :=
  [("equals", ["is", "equals", "equal to", "="]),
   ("greater", ["greater than", "more than", "over", "above", ">"]),
   ("less", ["less than", "under", "below", "<"]),
   ("between", ["between", "from", "range"]),
   ("like", ["like", "contains", "similar to"])]

/-- Flattened (operator, pattern) pairs in iteration order of
_parse_condition_phrase. -/
def condPatternList : List (String × String) :=
  conditionPatterns.foldl (fun acc p => acc ++ p.2.map (fun pat => (p.1, pat))) []

/-! ## Linguistic analyzer output and the intent accumulator -/

/-- One annotated token of the external dependency parser: its text, its
dependency label (token.dep_) and the texts of its right dependents
(token.rights), in order. -/
structure Token where
  text : String
  dep : String
  rights : List String
deriving DecidableEq

/-- Analyzer output for one (already lower-cased) input text. -/
structure Doc where
  text : String
  tokens : List Token
deriving DecidableEq

/-- One WHERE condition, components["where"] entries. -/
structure Condition where
  column : String
  operator : String
  value : String
deriving DecidableEq

/-- One aggregate entry, components["aggregates"] entries. -/
structure Aggregate where
  function : String
  column : String
deriving DecidableEq

/-- One ORDER BY entry, components["order_by"] entries. -/
structure OrderItem where
  column : String
  direction : String
deriving DecidableEq

/-- The shared intent accumulator built by _parse_query.  tables and columns
model the two Python sets as insertion-ordered duplicate-free lists;
the remaining fields are Python lists / Optional. -/
structure Components where
  tables : List String
  columns : List String
  joins : List String
  whereConds : List Condition
  groupBy : List String
  having : List String
  orderBy : List OrderItem
  limit : Option Nat
  aggregates : List Aggregate
deriving DecidableEq

/-- The freshly initialised accumulator of _parse_query. -/
def emptyComponents : Components := ⟨[], [], [], [], [], [], [], none, []⟩

/-! ## Intent extraction passes -/

/-- Bidirectional case-insensitive table-name test of _extract_entities:
table.lower() in token.text.lower() or token.text.lower() in table.lower(). -/
def tableMatchTok (tok : Token) (tb : String) : Bool :=
  strContains (pyLower tok.text) (pyLower tb) || strContains (pyLower tb) (pyLower tok.text)

/-- Unidirectional case-insensitive column-name test of _extract_entities:
column.lower() in token.text.lower(). -/
def colMatchTok (tok : Token) (col : String) : Bool :=
  strContains (pyLower tok.text) (pyLower col)

/-- Body of the table loop of _extract_entities for one candidate table. -/
def addTableIfMatch (tok : Token) (acc : Components) (tb : String) : Components :=
  if tableMatchTok tok tb then { acc with tables := insertSet acc.tables tb } else acc

/-- Body of the column loop of _extract_entities for one candidate column. -/
def addColIfMatch (tok : Token) (tb : String) (acc : Components) (col : String) : Components :=
  if colMatchTok tok col then
    { acc with columns := insertSet acc.columns (tb ++ "." ++ col),
               tables := insertSet acc.tables tb }
  else acc

/-- Per-token body of _extract_entities: the table loop followed by the
nested table/column loop. -/
def entityStepToken (c : Components) (tok : Token) : Components :=
  let c1 := tableNames.foldl (addTableIfMatch tok) c
  tableNames.foldl (fun acc tb => (tableColumns tb).foldl (addColIfMatch tok tb) acc) c1

/-- Matching part of _extract_entities (before the select-all fallback). -/
def entityMatches (doc : Doc) (c : Components) : Components :=
  doc.tokens.foldl entityStepToken c

/-- Model of _extract_entities: token matching plus the select-all fallback that adds
every column of every matched table when no column was matched. -/
def extract_entities (doc : Doc) (c : Components) : Components :=
  let c1 := entityMatches doc c
  if c1.columns.isEmpty then
    { c1 with columns := c1.tables.foldl (fun acc tb =>
        (tableColumns tb).foldl (fun a col => insertSet a (tb ++ "." ++ col)) acc) c1.columns }
  else c1

/-- Trigger test of _extract_conditions: a prepositional token whose text is
one of in / with / where. -/
def condTrigger (tok : Token) : Bool :=
  (tok.dep = "prep" || tok.dep = "prep_in") &&
    (tok.text = "in" || tok.text = "with" || tok.text = "where")

/-- Model of _parse_condition_phrase: join the right dependents into a phrase, then take
the first (operator, pattern) pair whose pattern occurs in the phrase and
splits it into exactly two parts. -/
def parse_condition_phrase (tok : Token) : Option Condition :=
  let phrase := String.intercalate " " tok.rights
  match condPatternList.find? (fun p =>
      strContains phrase p.2 && (pySplitStr phrase p.2).length == 2) with
  | some (op, pat) =>
    match pySplitStr phrase pat with
    | [a, b] => some ⟨pyStrip a, op, pyStrip b⟩
    | _ => none
  | none => none

/-- Model of _extract_conditions: parse a condition from every trigger token, in token
order, appending the successful ones. -/
def extract_conditions (doc : Doc) (c : Components) : Components :=
  { c with whereConds := doc.tokens.foldl (fun acc tok =>
      if condTrigger tok then
        match parse_condition_phrase tok with
        | some cond => acc ++ [cond]
        | none => acc
      else acc) c.whereConds }

/-- Inner column scan of _extract_aggregations: every schema column whose
name occurs in the text, paired with the (upper-cased) aggregate function. -/
def aggMatchesFor (text : String) (typ : String) : List Aggregate :=
  tableNames.foldl (fun acc tb =>
    acc ++ ((tableColumns tb).filter (fun col => strContains text (pyLower col))).map
      (fun col => { function := pyUpper typ, column := tb ++ "." ++ col })) []

/-- Model of _extract_aggregations: the keyword-column cross product over the whole
text, followed by the "by <word>" group-by scan. -/
def extract_aggregations (doc : Doc) (c : Components) : Components :=
  let text := pyLower doc.text
  let aggs := aggregatePatterns.foldl (fun acc tp =>
    tp.2.foldl (fun acc2 pat =>
      if strContains text pat then acc2 ++ aggMatchesFor text tp.1 else acc2) acc) c.aggregates
  let gbs := (scanBy text).foldl (fun acc w =>
    acc ++ (tableNames.filter (fun tb => w ∈ tableColumns tb)).map
      (fun tb => tb ++ "." ++ w)) c.groupBy
  { c with aggregates := aggs, groupBy := gbs }

/-- Model of _extract_ordering: first regex match decides the column word and the
direction; one entry is appended for every table having that column. -/
def extract_ordering (doc : Doc) (c : Components) : Components :=
  let text := pyLower doc.text
  match orderSearch text with
  | none => c
  | some (col, m) =>
    let dir : String :=
      match m with
      | some g => if strContains g "desc" then "DESC" else "ASC"
      | none => "ASC"
    let entries := (tableNames.filter (fun tb => col ∈ tableColumns tb)).map
      (fun tb => OrderItem.mk (tb ++ "." ++ col) dir)
    { c with orderBy := c.orderBy ++ entries }

/-- Model of _extract_limits: first regex match sets the limit. -/
def extract_limits (doc : Doc) (c : Components) : Components :=
  match limitSearch (pyLower doc.text) with
  | some n => { c with limit := some n }
  | none => c

/-- Model of _parse_query: the five extraction passes in order over the fresh
accumulator. -/
def parse_query (doc : Doc) : Components :=
  extract_limits doc (extract_ordering doc (extract_aggregations doc
    (extract_conditions doc (extract_entities doc emptyComponents))))

/-! ## Query builder -/

/-- Aggregate select item of _build_sql_query:
FUNCTION(column) as function_lastcolumnpart. -/
def aggItem (a : Aggregate) : String :=
  a.function ++ "(" ++ a.column ++ ") as " ++ pyLower a.function ++ "_" ++
    (match (pySplitStr a.column ".").getLast? with
     | some x => x
     | none => a.column)

/-- Render one WHERE condition by operator; an unrecognised operator renders
nothing (the elif chain of _build_sql_query has no else), and a BETWEEN value
without the literal "and" raises IndexError at values[1]. -/
def renderCondition (cond : Condition) : Except String (Option String) :=
  if cond.operator = "equals" then
    Except.ok (some (cond.column ++ " = " ++ sqt ++ cond.value ++ sqt))
  else if cond.operator = "greater" then
    Except.ok (some (cond.column ++ " > " ++ cond.value))
  else if cond.operator = "less" then
    Except.ok (some (cond.column ++ " < " ++ cond.value))
  else if cond.operator = "between" then
    match pySplitStr cond.value "and" with
    | v0 :: v1 :: _ =>
      Except.ok (some (cond.column ++ " BETWEEN " ++ pyStrip v0 ++ " AND " ++ pyStrip v1))
    | _ => Except.error "list index out of range"
  else if cond.operator = "like" then
    Except.ok (some (cond.column ++ " LIKE " ++ sqt ++ "%" ++ cond.value ++ "%" ++ sqt))
  else Except.ok none

/-- The WHERE loop of _build_sql_query: render conditions in order, aborting
on the first exception. -/
def buildWhere : List Condition → Except String (List String)
  | [] => Except.ok []
  | cond :: rest =>
    match renderCondition cond with
    | Except.error e => Except.error e
    | Except.ok r =>
      match buildWhere rest with
      | Except.error e => Except.error e
      | Except.ok rs =>
        Except.ok (match r with
          | some s => s :: rs
          | none => rs)

/-- The JOIN loop of _build_sql_query: one JOIN line per non-anchor table,
failing with KeyError when the relationship is undeclared. -/
def buildJoins (anchor : String) : List String → Except String String
  | [] => Except.ok ""
  | t :: rest =>
    match table_relationships anchor t with
    | none => Except.error ("KeyError: " ++ t)
    | some ji =>
      match buildJoins anchor rest with
      | Except.error e => Except.error e
      | Except.ok rj =>
        Except.ok ("JOIN " ++ t ++ " ON " ++ anchor ++ "." ++ ji.keys.1 ++
          " = " ++ t ++ "." ++ ji.keys.2 ++ "\n" ++ rj)

/-- WHERE block of _build_sql_query: the outer guard on components["where"],
the condition loop and the inner guard on the rendered list, appending the
WHERE clause to the query accumulated so far. -/
def buildWhereStep (c : Components) (q1 : String) : Except String String :=
  if c.whereConds = [] then Except.ok q1
  else
    match buildWhere c.whereConds with
    | Except.error e => Except.error e
    | Except.ok conds =>
      Except.ok (if conds = [] then q1
        else q1 ++ ("WHERE " ++ String.intercalate " AND " conds ++ "\n"))

/-- GROUP BY / HAVING / ORDER BY / LIMIT blocks of _build_sql_query, appended
in that fixed order to the query accumulated so far.  A limit of 0 is falsy in
Python and emits no LIMIT clause. -/
def buildTail (c : Components) (q2 : String) : String :=
  let q3 := if c.groupBy = [] then q2
    else q2 ++ ("GROUP BY " ++ String.intercalate ", " c.groupBy ++ "\n")
  let q4 := if c.having = [] then q3
    else q3 ++ ("HAVING " ++ String.intercalate " AND " c.having ++ "\n")
  let q5 := if c.orderBy = [] then q4
    else q4 ++ ("ORDER BY " ++
      String.intercalate ", " (c.orderBy.map (fun o => o.column ++ " " ++ o.direction)) ++ "\n")
  match c.limit with
  | some n => if n = 0 then q5 else q5 ++ ("LIMIT " ++ Nat.repr n)
  | none => q5

/-- Model of _build_sql_query.  tablesEnum and colsEnum are the iteration orders of the
two Python sets (list(components.select.tables) and the iteration of
components.select.columns); theorems constrain them to be permutations of the
accumulated sets. -/
def build_sql_query (c : Components) (tablesEnum colsEnum : List String) :
    Except String String :=
  let select_items := if c.aggregates = [] then colsEnum else c.aggregates.map aggItem
  let q0 := "SELECT " ++ String.intercalate ", " select_items ++ "\n"
  match tablesEnum with
  | [] => Except.error "list index out of range"
  | t0 :: rest =>
    match buildJoins t0 rest with
    | Except.error e => Except.error e
    | Except.ok joins =>
      match buildWhereStep c (q0 ++ "FROM " ++ t0 ++ "\n" ++ joins) with
      | Except.error e => Except.error e
      | Except.ok q2 => Except.ok (pyStrip (buildTail c q2))

/-- convert_to_sql: parse the (externally tokenised, lower-cased) text and
build the SQL string; any exception is re-raised as ValueError with the
prefixed message. -/
def convert_to_sql (doc : Doc) (tablesEnum colsEnum : List String) :
    Except String String :=
  match build_sql_query (parse_query doc) tablesEnum colsEnum with
  | Except.ok s => Except.ok s
  | Except.error e => Except.error ("Failed to convert text to SQL: " ++ e)

/-! ## Auxiliary definitions for the theorems -/

/-- Check that a character list is nonempty and starts with a non-whitespace
character; used to reason about pyStrip. -/
def headNonWs : List Char → Bool
  | [] => false
  | c :: _ => !c.isWhitespace

/-- Modelled from the claim text of C6 (spec 4.3): a BIDIRECTIONAL
case-insensitive column-name test (schema name substring of token OR token
substring of schema name).  The code (helper.py line 149) only tests the
first direction; this definition exists to be compared against the code. -/
def colMatchTokSpec (tok : Token) (col : String) : Bool :=
  strContains (pyLower tok.text) (pyLower col) || strContains (pyLower col) (pyLower tok.text)

/-- Spec variant of addColIfMatch using the bidirectional column test. -/
def addColIfMatchSpec (tok : Token) (tb : String) (acc : Components) (col : String) :
    Components :=
  if colMatchTokSpec tok col then
    { acc with columns := insertSet acc.columns (tb ++ "." ++ col),
               tables := insertSet acc.tables tb }
  else acc

/-- Spec variant of entityStepToken using the bidirectional column test. -/
def entityStepTokenSpec (c : Components) (tok : Token) : Components :=
  let c1 := tableNames.foldl (addTableIfMatch tok) c
  tableNames.foldl (fun acc tb => (tableColumns tb).foldl (addColIfMatchSpec tok tb) acc) c1

/-- Spec variant of the matching part of entity extraction. -/
def entityMatchesSpec (doc : Doc) (c : Components) : Components :=
  doc.tokens.foldl entityStepTokenSpec c

/-- The JOIN clause emitted by the builder for one non-anchor table, as in
helper.py line 258 (without the trailing newline). -/
def joinClause (anchor t : String) (ji : RelInfo) : String :=
  "JOIN " ++ t ++ " ON " ++ anchor ++ "." ++ ji.keys.1 ++ " = " ++ t ++ "." ++ ji.keys.2

deriving instance DecidableEq for Except

/-! ## Concrete analyzer outputs used in counterexamples and witnesses

Each Doc is the output of the external dependency parser on the lower-cased
input text: the token texts with plausible dependency labels, and for
prepositional tokens the texts of their right dependents.
-/

/-- Analyzer output for the input "average salary by department". -/
def docAvg : Doc :=
  ⟨"average salary by department",
   [⟨"average", "amod", []⟩, ⟨"salary", "nsubj", []⟩, ⟨"by", "prep", ["department"]⟩,
    ⟨"department", "pobj", []⟩]⟩

/-- Analyzer output for the input "show employees with salary over 80000",
with the condition phrase attached to the trigger token "with". -/
def docCond : Doc :=
  ⟨"show employees with salary over 80000",
   [⟨"show", "ROOT", []⟩, ⟨"employees", "dobj", []⟩,
    ⟨"with", "prep", ["salary", "over", "80000"]⟩,
    ⟨"salary", "pobj", []⟩, ⟨"over", "prep", []⟩, ⟨"80000", "pobj", []⟩]⟩

/-- Analyzer output for the input "sort by name desc". -/
def docSort : Doc :=
  ⟨"sort by name desc",
   [⟨"sort", "ROOT", []⟩, ⟨"by", "prep", ["name"]⟩, ⟨"name", "pobj", []⟩,
    ⟨"desc", "advmod", []⟩]⟩

/-- Analyzer output for the input "show employees". -/
def docShow : Doc :=
  ⟨"show employees", [⟨"show", "ROOT", []⟩, ⟨"employees", "dobj", []⟩]⟩

/-- Analyzer output for the input "average salary". -/
def docAvgSalary : Doc :=
  ⟨"average salary", [⟨"average", "amod", []⟩, ⟨"salary", "ROOT", []⟩]⟩

/-- Analyzer output for the input "salar" (a strict prefix of the column name
salary, so the token text is a substring of the column name but not
conversely). -/
def docSalar : Doc := ⟨"salar", [⟨"salar", "ROOT", []⟩]⟩

/-- Analyzer output for the input "hello": no schema word, no trigger. -/
def docHello : Doc := ⟨"hello", [⟨"hello", "ROOT", []⟩]⟩

/-- Intent with a BETWEEN condition whose value lacks the literal "and". -/
def badBetweenComponents : Components :=
  ⟨["employees"], ["employees.salary"], [],
   [⟨"salary", "between", "70000 to 90000"⟩], [], [], [], none, []⟩

/-! ## Basic lemmas about the string utilities -/

theorem mem_insertSet {l : List String} {x y : String} :
    x ∈ insertSet l y ↔ x ∈ l ∨ x = y := by
  unfold insertSet
  split
  · rename_i h
    constructor
    · exact Or.inl
    · rintro (hx | rfl)
      · exact hx
      · exact h
  · simp

theorem isPrefixOf_nil_left (l : List Char) : List.isPrefixOf [] l = true := by
  cases l <;> rfl

theorem isPrefixOf_append_self (x v : List Char) : x.isPrefixOf (x ++ v) = true := by
  induction x with
  | nil => exact isPrefixOf_nil_left v
  | cons a as ih => simp [List.isPrefixOf, ih]

theorem hasSub_mid (x u v : List Char) : hasSub x (u ++ (x ++ v)) = true := by
  induction u with
  | nil =>
    simp only [List.nil_append]
    cases x with
    | nil => cases v <;> simp [hasSub, isPrefixOf_nil_left]
    | cons c cs =>
      show hasSub (c :: cs) (c :: (cs ++ v)) = true
      unfold hasSub
      rw [show c :: (cs ++ v) = (c :: cs) ++ v from rfl, isPrefixOf_append_self]
      rfl
  | cons a as ih =>
    show hasSub x (a :: (as ++ (x ++ v))) = true
    unfold hasSub
    rw [ih]
    simp

theorem dropWhile_append_not (p : Char → Bool) (u : List Char) {c : Char} (cs : List Char)
    (hc : p c = false) : (u ++ c :: cs).dropWhile p = u.dropWhile p ++ c :: cs := by
  induction u with
  | nil => simp [List.dropWhile_cons, hc]
  | cons a as ih =>
    by_cases ha : p a
    · simp [List.dropWhile_cons, ha, ih]
    · simp [List.dropWhile_cons, ha]

theorem trimRightL_append_keep (y v : List Char) {d : Char} {ds : List Char}
    (hy : y.reverse = d :: ds) (hd : d.isWhitespace = false) :
    trimRightL (y ++ v) = y ++ trimRightL v := by
  unfold trimRightL
  rw [List.reverse_append, hy, dropWhile_append_not _ _ _ hd, List.reverse_append,
    ← hy, List.reverse_reverse]

theorem trimRightL_ws_nil : trimRightL ['\n'] = [] := by decide

theorem endsWithL_append (u x : List Char) : endsWithL x (u ++ x) = true := by
  unfold endsWithL
  rw [List.length_append, Nat.add_sub_cancel, List.drop_left]
  simp

theorem pyStripL_decomp (u x v : List Char) {a d : Char} {xs ds : List Char}
    (hhead : x = a :: xs) (ha : a.isWhitespace = false)
    (hrev : x.reverse = d :: ds) (hd : d.isWhitespace = false) :
    pyStripL ((u ++ x) ++ v) =
      (u.dropWhile Char.isWhitespace ++ x) ++ trimRightL v := by
  unfold pyStripL
  rw [show (u ++ x) ++ v = u ++ (x ++ v) from by simp, hhead,
    show (a :: xs) ++ v = a :: (xs ++ v) from rfl,
    dropWhile_append_not Char.isWhitespace u _ ha,
    show a :: (xs ++ v) = (a :: xs) ++ v from rfl, ← hhead,
    show u.dropWhile Char.isWhitespace ++ (x ++ v) =
      (u.dropWhile Char.isWhitespace ++ x) ++ v from by simp]
  have hy : (u.dropWhile Char.isWhitespace ++ x).reverse =
      d :: (ds ++ (u.dropWhile Char.isWhitespace).reverse) := by
    rw [List.reverse_append, hrev]
    rfl
  exact trimRightL_append_keep _ _ hy hd

theorem hasSub_pyStripL (u x v : List Char) {a d : Char} {xs ds : List Char}
    (hhead : x = a :: xs) (ha : a.isWhitespace = false)
    (hrev : x.reverse = d :: ds) (hd : d.isWhitespace = false) :
    hasSub x (pyStripL ((u ++ x) ++ v)) = true := by
  rw [pyStripL_decomp u x v hhead ha hrev hd,
    show (u.dropWhile Char.isWhitespace ++ x) ++ trimRightL v =
      u.dropWhile Char.isWhitespace ++ (x ++ trimRightL v) from by simp]
  exact hasSub_mid _ _ _

theorem endsWithL_pyStripL (u x : List Char) {a d : Char} {xs ds : List Char}
    (hhead : x = a :: xs) (ha : a.isWhitespace = false)
    (hrev : x.reverse = d :: ds) (hd : d.isWhitespace = false) :
    endsWithL x (pyStripL (u ++ x)) = true := by
  have h := pyStripL_decomp u x [] hhead ha hrev hd
  rw [List.append_nil] at h
  rw [h, show trimRightL [] = [] from rfl, List.append_nil]
  exact endsWithL_append _ _

theorem hasSub_false_not_isPrefixOf {pat l : List Char} (h : hasSub pat l = false) :
    ∀ c cs, l = c :: cs → pat.isPrefixOf l = false := by
  intro c cs hl
  subst hl
  unfold hasSub at h
  simpa using (Bool.or_eq_false_iff.mp h).1

theorem pySplitAux_no_occurrence {pat : List Char} :
    ∀ (fuel : Nat) {l : List Char}, l.length ≤ fuel → hasSub pat l = false →
      pySplitAux pat fuel l = [l] := by
  intro fuel
  induction fuel with
  | zero =>
    intro l hlen _
    cases l with
    | nil => rfl
    | cons c cs => simp at hlen
  | succ fuel ih =>
    intro l hlen h
    cases l with
    | nil => rfl
    | cons c cs =>
      unfold hasSub at h
      have h1 : pat.isPrefixOf (c :: cs) = false := by
        simpa using (Bool.or_eq_false_iff.mp h).1
      have h2 : hasSub pat cs = false := (Bool.or_eq_false_iff.mp h).2
      unfold pySplitAux
      rw [if_neg (by simp [h1])]
      rw [ih (by simpa using Nat.le_of_succ_le_succ (by simpa using hlen)) h2]

theorem pySplitL_no_occurrence {pat : List Char} {l : List Char}
    (h : hasSub pat l = false) : pySplitL pat l = [l] :=
  pySplitAux_no_occurrence l.length (Nat.le_refl _) h

/-! ## Shape and frame lemmas for the extraction passes -/

theorem addTableIfMatch_shape (tok : Token) (c : Components) (tb : String) :
    ∃ ts, addTableIfMatch tok c tb = { c with tables := ts } := by
  unfold addTableIfMatch
  split
  · exact ⟨_, rfl⟩
  · exact ⟨c.tables, rfl⟩

theorem foldl_addTable_shape (tok : Token) :
    ∀ (l : List String) (c : Components),
      ∃ ts, l.foldl (addTableIfMatch tok) c = { c with tables := ts } := by
  intro l
  induction l with
  | nil => exact fun c => ⟨c.tables, rfl⟩
  | cons x xs ih =>
    intro c
    rw [List.foldl_cons]
    obtain ⟨t0, h0⟩ := addTableIfMatch_shape tok c x
    rw [h0]
    obtain ⟨ts, hts⟩ := ih { c with tables := t0 }
    exact ⟨ts, hts⟩

theorem addColIfMatch_shape (tok : Token) (tb : String) (c : Components) (col : String) :
    ∃ ts cs, addColIfMatch tok tb c col = { c with tables := ts, columns := cs } := by
  unfold addColIfMatch
  split
  · exact ⟨_, _, rfl⟩
  · exact ⟨c.tables, c.columns, rfl⟩

theorem foldl_addCol_shape (tok : Token) (tb : String) :
    ∀ (l : List String) (c : Components),
      ∃ ts cs, l.foldl (addColIfMatch tok tb) c = { c with tables := ts, columns := cs } := by
  intro l
  induction l with
  | nil => exact fun c => ⟨c.tables, c.columns, rfl⟩
  | cons x xs ih =>
    intro c
    rw [List.foldl_cons]
    obtain ⟨t0, c0, h0⟩ := addColIfMatch_shape tok tb c x
    rw [h0]
    obtain ⟨ts, cs, hts⟩ := ih { c with tables := t0, columns := c0 }
    exact ⟨ts, cs, hts⟩

theorem foldl_colLoop_shape (tok : Token) :
    ∀ (l : List String) (c : Components),
      ∃ ts cs, l.foldl (fun acc tb => (tableColumns tb).foldl (addColIfMatch tok tb) acc) c =
        { c with tables := ts, columns := cs } := by
  intro l
  induction l with
  | nil => exact fun c => ⟨c.tables, c.columns, rfl⟩
  | cons x xs ih =>
    intro c
    rw [List.foldl_cons]
    obtain ⟨t0, c0, h0⟩ := foldl_addCol_shape tok x (tableColumns x) c
    rw [h0]
    obtain ⟨ts, cs, hts⟩ := ih { c with tables := t0, columns := c0 }
    exact ⟨ts, cs, hts⟩

theorem entityStepToken_shape (c : Components) (tok : Token) :
    ∃ ts cs, entityStepToken c tok = { c with tables := ts, columns := cs } := by
  unfold entityStepToken
  obtain ⟨t0, h0⟩ := foldl_addTable_shape tok tableNames c
  rw [h0]
  obtain ⟨ts, cs, hts⟩ := foldl_colLoop_shape tok tableNames { c with tables := t0 }
  exact ⟨ts, cs, hts⟩

theorem entityMatches_shape (doc : Doc) :
    ∀ (c : Components), ∃ ts cs, entityMatches doc c = { c with tables := ts, columns := cs } := by
  unfold entityMatches
  induction doc.tokens with
  | nil => exact fun c => ⟨c.tables, c.columns, rfl⟩
  | cons tok toks ih =>
    intro c
    rw [List.foldl_cons]
    obtain ⟨t0, c0, h0⟩ := entityStepToken_shape c tok
    rw [h0]
    obtain ⟨ts, cs, hts⟩ := ih { c with tables := t0, columns := c0 }
    exact ⟨ts, cs, hts⟩

theorem extract_entities_shape (doc : Doc) (c : Components) :
    ∃ ts cs, extract_entities doc c = { c with tables := ts, columns := cs } := by
  unfold extract_entities
  obtain ⟨t0, c0, h0⟩ := entityMatches_shape doc c
  rw [h0]
  dsimp only
  split
  · exact ⟨_, _, rfl⟩
  · exact ⟨t0, c0, rfl⟩

theorem extract_ordering_shape (doc : Doc) (c : Components) :
    ∃ ob, extract_ordering doc c = { c with orderBy := ob } := by
  unfold extract_ordering
  dsimp only
  split
  · exact ⟨c.orderBy, rfl⟩
  · exact ⟨_, rfl⟩

theorem extract_limits_shape (doc : Doc) (c : Components) :
    ∃ lm, extract_limits doc c = { c with limit := lm } := by
  unfold extract_limits
  split
  · exact ⟨_, rfl⟩
  · exact ⟨c.limit, rfl⟩

/-! ## Per-field lemmas for the extraction passes -/

theorem extract_entities_whereConds (doc : Doc) (c : Components) :
    (extract_entities doc c).whereConds = c.whereConds := by
  obtain ⟨ts, cs, h⟩ := extract_entities_shape doc c
  rw [h]

theorem extract_entities_aggregates (doc : Doc) (c : Components) :
    (extract_entities doc c).aggregates = c.aggregates := by
  obtain ⟨ts, cs, h⟩ := extract_entities_shape doc c
  rw [h]

theorem extract_entities_groupBy (doc : Doc) (c : Components) :
    (extract_entities doc c).groupBy = c.groupBy := by
  obtain ⟨ts, cs, h⟩ := extract_entities_shape doc c
  rw [h]

theorem extract_entities_orderBy (doc : Doc) (c : Components) :
    (extract_entities doc c).orderBy = c.orderBy := by
  obtain ⟨ts, cs, h⟩ := extract_entities_shape doc c
  rw [h]

theorem extract_entities_limit (doc : Doc) (c : Components) :
    (extract_entities doc c).limit = c.limit := by
  obtain ⟨ts, cs, h⟩ := extract_entities_shape doc c
  rw [h]

theorem extract_entities_having (doc : Doc) (c : Components) :
    (extract_entities doc c).having = c.having := by
  obtain ⟨ts, cs, h⟩ := extract_entities_shape doc c
  rw [h]

theorem extract_conditions_tables (doc : Doc) (c : Components) :
    (extract_conditions doc c).tables = c.tables := rfl

theorem extract_conditions_columns (doc : Doc) (c : Components) :
    (extract_conditions doc c).columns = c.columns := rfl

theorem extract_conditions_aggregates (doc : Doc) (c : Components) :
    (extract_conditions doc c).aggregates = c.aggregates := rfl

theorem extract_conditions_groupBy (doc : Doc) (c : Components) :
    (extract_conditions doc c).groupBy = c.groupBy := rfl

theorem extract_conditions_orderBy (doc : Doc) (c : Components) :
    (extract_conditions doc c).orderBy = c.orderBy := rfl

theorem extract_conditions_limit (doc : Doc) (c : Components) :
    (extract_conditions doc c).limit = c.limit := rfl

theorem extract_conditions_having (doc : Doc) (c : Components) :
    (extract_conditions doc c).having = c.having := rfl

theorem extract_conditions_whereConds (doc : Doc) (c : Components) :
    (extract_conditions doc c).whereConds = doc.tokens.foldl (fun acc tok =>
      if condTrigger tok then
        match parse_condition_phrase tok with
        | some cond => acc ++ [cond]
        | none => acc
      else acc) c.whereConds := rfl

theorem extract_aggregations_tables (doc : Doc) (c : Components) :
    (extract_aggregations doc c).tables = c.tables := rfl

theorem extract_aggregations_columns (doc : Doc) (c : Components) :
    (extract_aggregations doc c).columns = c.columns := rfl

theorem extract_aggregations_whereConds (doc : Doc) (c : Components) :
    (extract_aggregations doc c).whereConds = c.whereConds := rfl

theorem extract_aggregations_orderBy (doc : Doc) (c : Components) :
    (extract_aggregations doc c).orderBy = c.orderBy := rfl

theorem extract_aggregations_limit (doc : Doc) (c : Components) :
    (extract_aggregations doc c).limit = c.limit := rfl

theorem extract_aggregations_having (doc : Doc) (c : Components) :
    (extract_aggregations doc c).having = c.having := rfl

theorem extract_aggregations_aggregates (doc : Doc) (c : Components) :
    (extract_aggregations doc c).aggregates =
      aggregatePatterns.foldl (fun acc tp =>
        tp.2.foldl (fun acc2 pat =>
          if strContains (pyLower doc.text) pat then acc2 ++ aggMatchesFor (pyLower doc.text) tp.1
          else acc2) acc) c.aggregates := rfl

theorem extract_aggregations_groupBy (doc : Doc) (c : Components) :
    (extract_aggregations doc c).groupBy =
      (scanBy (pyLower doc.text)).foldl (fun acc w =>
        acc ++ (tableNames.filter (fun tb => w ∈ tableColumns tb)).map
          (fun tb => tb ++ "." ++ w)) c.groupBy := rfl

theorem extract_ordering_tables (doc : Doc) (c : Components) :
    (extract_ordering doc c).tables = c.tables := by
  obtain ⟨ob, h⟩ := extract_ordering_shape doc c
  rw [h]

theorem extract_ordering_columns (doc : Doc) (c : Components) :
    (extract_ordering doc c).columns = c.columns := by
  obtain ⟨ob, h⟩ := extract_ordering_shape doc c
  rw [h]

theorem extract_ordering_whereConds (doc : Doc) (c : Components) :
    (extract_ordering doc c).whereConds = c.whereConds := by
  obtain ⟨ob, h⟩ := extract_ordering_shape doc c
  rw [h]

theorem extract_ordering_aggregates (doc : Doc) (c : Components) :
    (extract_ordering doc c).aggregates = c.aggregates := by
  obtain ⟨ob, h⟩ := extract_ordering_shape doc c
  rw [h]

theorem extract_ordering_groupBy (doc : Doc) (c : Components) :
    (extract_ordering doc c).groupBy = c.groupBy := by
  obtain ⟨ob, h⟩ := extract_ordering_shape doc c
  rw [h]

theorem extract_ordering_limit (doc : Doc) (c : Components) :
    (extract_ordering doc c).limit = c.limit := by
  obtain ⟨ob, h⟩ := extract_ordering_shape doc c
  rw [h]

theorem extract_ordering_having (doc : Doc) (c : Components) :
    (extract_ordering doc c).having = c.having := by
  obtain ⟨ob, h⟩ := extract_ordering_shape doc c
  rw [h]

theorem extract_ordering_orderBy (doc : Doc) (c : Components) :
    (extract_ordering doc c).orderBy =
      (match orderSearch (pyLower doc.text) with
       | none => c.orderBy
       | some (col, m) =>
         c.orderBy ++ (tableNames.filter (fun tb => col ∈ tableColumns tb)).map
           (fun tb => OrderItem.mk (tb ++ "." ++ col)
             (match m with
              | some g => if strContains g "desc" then "DESC" else "ASC"
              | none => "ASC"))) := by
  cases h : orderSearch (pyLower doc.text) with
  | none => simp only [extract_ordering, h]
  | some r =>
    obtain ⟨col, m⟩ := r
    simp only [extract_ordering, h]

theorem extract_limits_tables (doc : Doc) (c : Components) :
    (extract_limits doc c).tables = c.tables := by
  obtain ⟨lm, h⟩ := extract_limits_shape doc c
  rw [h]

theorem extract_limits_columns (doc : Doc) (c : Components) :
    (extract_limits doc c).columns = c.columns := by
  obtain ⟨lm, h⟩ := extract_limits_shape doc c
  rw [h]

theorem extract_limits_whereConds (doc : Doc) (c : Components) :
    (extract_limits doc c).whereConds = c.whereConds := by
  obtain ⟨lm, h⟩ := extract_limits_shape doc c
  rw [h]

theorem extract_limits_aggregates (doc : Doc) (c : Components) :
    (extract_limits doc c).aggregates = c.aggregates := by
  obtain ⟨lm, h⟩ := extract_limits_shape doc c
  rw [h]

theorem extract_limits_groupBy (doc : Doc) (c : Components) :
    (extract_limits doc c).groupBy = c.groupBy := by
  obtain ⟨lm, h⟩ := extract_limits_shape doc c
  rw [h]

theorem extract_limits_orderBy (doc : Doc) (c : Components) :
    (extract_limits doc c).orderBy = c.orderBy := by
  obtain ⟨lm, h⟩ := extract_limits_shape doc c
  rw [h]

theorem extract_limits_having (doc : Doc) (c : Components) :
    (extract_limits doc c).having = c.having := by
  obtain ⟨lm, h⟩ := extract_limits_shape doc c
  rw [h]

theorem extract_limits_limit (doc : Doc) (c : Components) :
    (extract_limits doc c).limit =
      (match limitSearch (pyLower doc.text) with
       | some n => some n
       | none => c.limit) := by
  cases h : limitSearch (pyLower doc.text) with
  | none => simp only [extract_limits, h]
  | some n => simp only [extract_limits, h]

/-! ## parse_query field characterizations -/

theorem parse_query_whereConds (doc : Doc) :
    (parse_query doc).whereConds = doc.tokens.foldl (fun acc tok =>
      if condTrigger tok then
        match parse_condition_phrase tok with
        | some cond => acc ++ [cond]
        | none => acc
      else acc) [] := by
  unfold parse_query
  rw [extract_limits_whereConds, extract_ordering_whereConds, extract_aggregations_whereConds,
    extract_conditions_whereConds, extract_entities_whereConds]
  rfl

theorem parse_query_limit (doc : Doc) :
    (parse_query doc).limit = limitSearch (pyLower doc.text) := by
  unfold parse_query
  rw [extract_limits_limit]
  cases h : limitSearch (pyLower doc.text) with
  | none =>
    rw [extract_ordering_limit, extract_aggregations_limit, extract_conditions_limit,
      extract_entities_limit]
    rfl
  | some n => rfl

theorem parse_query_orderBy (doc : Doc) :
    (parse_query doc).orderBy =
      (match orderSearch (pyLower doc.text) with
       | none => []
       | some (col, m) =>
         (tableNames.filter (fun tb => col ∈ tableColumns tb)).map
           (fun tb => OrderItem.mk (tb ++ "." ++ col)
             (match m with
              | some g => if strContains g "desc" then "DESC" else "ASC"
              | none => "ASC"))) := by
  unfold parse_query
  rw [extract_limits_orderBy, extract_ordering_orderBy]
  have hbase : (extract_aggregations doc
      (extract_conditions doc (extract_entities doc emptyComponents))).orderBy = [] := by
    rw [extract_aggregations_orderBy, extract_conditions_orderBy, extract_entities_orderBy]
    rfl
  cases h : orderSearch (pyLower doc.text) with
  | none => exact hbase
  | some r =>
    obtain ⟨col, m⟩ := r
    rw [hbase]
    simp

theorem parse_query_aggregates (doc : Doc) :
    (parse_query doc).aggregates =
      aggregatePatterns.foldl (fun acc tp =>
        tp.2.foldl (fun acc2 pat =>
          if strContains (pyLower doc.text) pat then acc2 ++ aggMatchesFor (pyLower doc.text) tp.1
          else acc2) acc) [] := by
  unfold parse_query
  rw [extract_limits_aggregates, extract_ordering_aggregates, extract_aggregations_aggregates,
    extract_conditions_aggregates, extract_entities_aggregates]
  rfl

theorem parse_query_groupBy (doc : Doc) :
    (parse_query doc).groupBy =
      (scanBy (pyLower doc.text)).foldl (fun acc w =>
        acc ++ (tableNames.filter (fun tb => w ∈ tableColumns tb)).map
          (fun tb => tb ++ "." ++ w)) [] := by
  unfold parse_query
  rw [extract_limits_groupBy, extract_ordering_groupBy, extract_aggregations_groupBy,
    extract_conditions_groupBy, extract_entities_groupBy]
  rfl

theorem parse_query_tables (doc : Doc) :
    (parse_query doc).tables = (extract_entities doc emptyComponents).tables := by
  unfold parse_query
  rw [extract_limits_tables, extract_ordering_tables, extract_aggregations_tables,
    extract_conditions_tables]

theorem parse_query_columns (doc : Doc) :
    (parse_query doc).columns = (extract_entities doc emptyComponents).columns := by
  unfold parse_query
  rw [extract_limits_columns, extract_ordering_columns, extract_aggregations_columns,
    extract_conditions_columns]

theorem parse_query_having (doc : Doc) : (parse_query doc).having = [] := by
  unfold parse_query
  rw [extract_limits_having, extract_ordering_having, extract_aggregations_having,
    extract_conditions_having, extract_entities_having]
  rfl

/-! ## No-op lemmas: extraction passes on trigger-free input -/

theorem conds_fold_noop {toks : List Token} (h : ∀ tok ∈ toks, condTrigger tok = false) :
    ∀ acc : List Condition, toks.foldl (fun acc tok =>
      if condTrigger tok then
        match parse_condition_phrase tok with
        | some cond => acc ++ [cond]
        | none => acc
      else acc) acc = acc := by
  induction toks with
  | nil => intro acc; rfl
  | cons tok toks ih =>
    intro acc
    rw [List.foldl_cons, if_neg (by simp [h tok (by simp)])]
    exact ih (fun t ht => h t (List.mem_cons_of_mem _ ht)) acc

theorem agg_inner_noop {text : String} {t : String} {pats : List String}
    (h : ∀ pat ∈ pats, strContains text pat = false) :
    ∀ acc : List Aggregate, pats.foldl (fun acc2 pat =>
      if strContains text pat then acc2 ++ aggMatchesFor text t else acc2) acc = acc := by
  induction pats with
  | nil => intro acc; rfl
  | cons pat pats ih =>
    intro acc
    rw [List.foldl_cons, if_neg (by simp [h pat (by simp)])]
    exact ih (fun p hp => h p (List.mem_cons_of_mem _ hp)) acc

theorem agg_fold_noop {text : String} {ps : List (String × List String)}
    (h : ∀ p ∈ ps, ∀ pat ∈ p.2, strContains text pat = false) :
    ∀ acc : List Aggregate, ps.foldl (fun acc tp =>
      tp.2.foldl (fun acc2 pat =>
        if strContains text pat then acc2 ++ aggMatchesFor text tp.1 else acc2) acc) acc = acc := by
  induction ps with
  | nil => intro acc; rfl
  | cons p ps ih =>
    intro acc
    rw [List.foldl_cons, agg_inner_noop (h p (by simp))]
    exact ih (fun p' hp' => h p' (List.mem_cons_of_mem _ hp')) acc

theorem groupBy_fold_noop {words : List String}
    (h : ∀ w ∈ words, ∀ tb ∈ tableNames, w ∉ tableColumns tb) :
    ∀ acc : List String, words.foldl (fun acc w =>
      acc ++ (tableNames.filter (fun tb => w ∈ tableColumns tb)).map
        (fun tb => tb ++ "." ++ w)) acc = acc := by
  induction words with
  | nil => intro acc; rfl
  | cons w ws ih =>
    intro acc
    rw [List.foldl_cons]
    have hf : tableNames.filter (fun tb => w ∈ tableColumns tb) = [] := by
      rw [List.filter_eq_nil_iff]
      intro tb htb
      simpa using h w (by simp) tb htb
    rw [hf]
    simpa using ih (fun w' hw' => h w' (List.mem_cons_of_mem _ hw')) acc

/-! ## Membership characterization of entity extraction -/

theorem mem_foldl_addTable (tok : Token) :
    ∀ (l : List String) (c : Components) (x : String),
      x ∈ (l.foldl (addTableIfMatch tok) c).tables ↔
        x ∈ c.tables ∨ (x ∈ l ∧ tableMatchTok tok x = true) := by
  intro l
  induction l with
  | nil => simp
  | cons tb tbs ih =>
    intro c x
    rw [List.foldl_cons]
    by_cases hm : tableMatchTok tok tb = true
    · rw [show addTableIfMatch tok c tb = { c with tables := insertSet c.tables tb } from by
        unfold addTableIfMatch; rw [if_pos hm], ih]
      dsimp only
      rw [mem_insertSet]
      constructor
      · rintro ((hx | rfl) | ⟨hx, hmx⟩)
        · exact Or.inl hx
        · exact Or.inr ⟨List.mem_cons_self _ _, hm⟩
        · exact Or.inr ⟨List.mem_cons_of_mem _ hx, hmx⟩
      · rintro (hx | ⟨hmem, hmx⟩)
        · exact Or.inl (Or.inl hx)
        · rcases List.mem_cons.mp hmem with rfl | hx
          · exact Or.inl (Or.inr rfl)
          · exact Or.inr ⟨hx, hmx⟩
    · rw [show addTableIfMatch tok c tb = c from by
        unfold addTableIfMatch; rw [if_neg hm], ih]
      constructor
      · rintro (hx | ⟨hx, hmx⟩)
        · exact Or.inl hx
        · exact Or.inr ⟨List.mem_cons_of_mem _ hx, hmx⟩
      · rintro (hx | ⟨hmem, hmx⟩)
        · exact Or.inl hx
        · rcases List.mem_cons.mp hmem with rfl | hx
          · exact absurd hmx hm
          · exact Or.inr ⟨hx, hmx⟩

theorem foldl_addTable_columns (tok : Token) (l : List String) (c : Components) :
    (l.foldl (addTableIfMatch tok) c).columns = c.columns := by
  obtain ⟨ts, h⟩ := foldl_addTable_shape tok l c
  rw [h]

theorem mem_foldl_addCol (tok : Token) (tb : String) :
    ∀ (l : List String) (c : Components),
      (∀ x, x ∈ (l.foldl (addColIfMatch tok tb) c).tables ↔
        x ∈ c.tables ∨ (x = tb ∧ ∃ col ∈ l, colMatchTok tok col = true)) ∧
      (∀ q, q ∈ (l.foldl (addColIfMatch tok tb) c).columns ↔
        q ∈ c.columns ∨ ∃ col ∈ l, colMatchTok tok col = true ∧ q = tb ++ "." ++ col) := by
  intro l
  induction l with
  | nil => simp
  | cons col cols ih =>
    intro c
    rw [List.foldl_cons]
    by_cases hm : colMatchTok tok col = true
    · rw [show addColIfMatch tok tb c col = { c with
          columns := insertSet c.columns (tb ++ "." ++ col),
          tables := insertSet c.tables tb } from by
        unfold addColIfMatch; rw [if_pos hm]]
      obtain ⟨ihT, ihC⟩ := ih { c with
        columns := insertSet c.columns (tb ++ "." ++ col), tables := insertSet c.tables tb }
      constructor
      · intro x
        rw [ihT]
        dsimp only
        rw [mem_insertSet]
        constructor
        · rintro ((hx | rfl) | ⟨rfl, col', hcol', hmx⟩)
          · exact Or.inl hx
          · exact Or.inr ⟨rfl, col, by simp, hm⟩
          · exact Or.inr ⟨rfl, col', List.mem_cons_of_mem _ hcol', hmx⟩
        · rintro (hx | ⟨rfl, col', hmem, hmx⟩)
          · exact Or.inl (Or.inl hx)
          · rcases List.mem_cons.mp hmem with rfl | hx
            · exact Or.inl (Or.inr rfl)
            · exact Or.inr ⟨rfl, col', hx, hmx⟩
      · intro q
        rw [ihC]
        dsimp only
        rw [mem_insertSet]
        constructor
        · rintro ((hq | rfl) | ⟨col', hcol', hmx, rfl⟩)
          · exact Or.inl hq
          · exact Or.inr ⟨col, by simp, hm, rfl⟩
          · exact Or.inr ⟨col', List.mem_cons_of_mem _ hcol', hmx, rfl⟩
        · rintro (hq | ⟨col', hmem, hmx, rfl⟩)
          · exact Or.inl (Or.inl hq)
          · rcases List.mem_cons.mp hmem with rfl | hx
            · exact Or.inl (Or.inr rfl)
            · exact Or.inr ⟨col', hx, hmx, rfl⟩
    · rw [show addColIfMatch tok tb c col = c from by
        unfold addColIfMatch; rw [if_neg hm]]
      obtain ⟨ihT, ihC⟩ := ih c
      constructor
      · intro x
        rw [ihT]
        constructor
        · rintro (hx | ⟨rfl, col', hcol', hmx⟩)
          · exact Or.inl hx
          · exact Or.inr ⟨rfl, col', List.mem_cons_of_mem _ hcol', hmx⟩
        · rintro (hx | ⟨rfl, col', hmem, hmx⟩)
          · exact Or.inl hx
          · rcases List.mem_cons.mp hmem with rfl | hx
            · exact absurd hmx hm
            · exact Or.inr ⟨rfl, col', hx, hmx⟩
      · intro q
        rw [ihC]
        constructor
        · rintro (hq | ⟨col', hcol', hmx, rfl⟩)
          · exact Or.inl hq
          · exact Or.inr ⟨col', List.mem_cons_of_mem _ hcol', hmx, rfl⟩
        · rintro (hq | ⟨col', hmem, hmx, rfl⟩)
          · exact Or.inl hq
          · rcases List.mem_cons.mp hmem with rfl | hx
            · exact absurd hmx hm
            · exact Or.inr ⟨col', hx, hmx, rfl⟩

theorem mem_foldl_colLoop (tok : Token) :
    ∀ (l : List String) (c : Components),
      (∀ x, x ∈ (l.foldl (fun acc tb => (tableColumns tb).foldl (addColIfMatch tok tb) acc) c).tables ↔
        x ∈ c.tables ∨ (x ∈ l ∧ ∃ col ∈ tableColumns x, colMatchTok tok col = true)) ∧
      (∀ q, q ∈ (l.foldl (fun acc tb => (tableColumns tb).foldl (addColIfMatch tok tb) acc) c).columns ↔
        q ∈ c.columns ∨ ∃ tb ∈ l, ∃ col ∈ tableColumns tb, colMatchTok tok col = true ∧
          q = tb ++ "." ++ col) := by
  intro l
  induction l with
  | nil => simp
  | cons tb tbs ih =>
    intro c
    rw [List.foldl_cons]
    obtain ⟨ihT, ihC⟩ := ih ((tableColumns tb).foldl (addColIfMatch tok tb) c)
    obtain ⟨hT, hC⟩ := mem_foldl_addCol tok tb (tableColumns tb) c
    constructor
    · intro x
      rw [ihT, hT]
      constructor
      · rintro ((hx | ⟨rfl, hcol⟩) | ⟨hx, hcol⟩)
        · exact Or.inl hx
        · exact Or.inr ⟨List.mem_cons_self _ _, hcol⟩
        · exact Or.inr ⟨List.mem_cons_of_mem _ hx, hcol⟩
      · rintro (hx | ⟨hmem, hcol⟩)
        · exact Or.inl (Or.inl hx)
        · rcases List.mem_cons.mp hmem with rfl | hx
          · exact Or.inl (Or.inr ⟨rfl, hcol⟩)
          · exact Or.inr ⟨hx, hcol⟩
    · intro q
      rw [ihC, hC]
      constructor
      · rintro ((hq | ⟨col, hcol, hm, rfl⟩) | ⟨tb', htb', col, hcol, hm, rfl⟩)
        · exact Or.inl hq
        · exact Or.inr ⟨tb, List.mem_cons_self _ _, col, hcol, hm, rfl⟩
        · exact Or.inr ⟨tb', List.mem_cons_of_mem _ htb', col, hcol, hm, rfl⟩
      · rintro (hq | ⟨tb', hmem, col, hcol, hm, rfl⟩)
        · exact Or.inl (Or.inl hq)
        · rcases List.mem_cons.mp hmem with rfl | hx
          · exact Or.inl (Or.inr ⟨col, hcol, hm, rfl⟩)
          · exact Or.inr ⟨tb', hx, col, hcol, hm, rfl⟩

theorem mem_entityStepToken (c : Components) (tok : Token) :
    (∀ x, x ∈ (entityStepToken c tok).tables ↔
      x ∈ c.tables ∨ ((x ∈ tableNames ∧ tableMatchTok tok x = true) ∨
        (x ∈ tableNames ∧ ∃ col ∈ tableColumns x, colMatchTok tok col = true))) ∧
    (∀ q, q ∈ (entityStepToken c tok).columns ↔
      q ∈ c.columns ∨ ∃ tb ∈ tableNames, ∃ col ∈ tableColumns tb, colMatchTok tok col = true ∧
        q = tb ++ "." ++ col) := by
  unfold entityStepToken
  obtain ⟨hT2, hC2⟩ := mem_foldl_colLoop tok tableNames (tableNames.foldl (addTableIfMatch tok) c)
  constructor
  · intro x
    rw [hT2, mem_foldl_addTable]
    constructor
    · rintro ((hx | ⟨hmem, hm⟩) | ⟨hmem, hcol⟩)
      · exact Or.inl hx
      · exact Or.inr (Or.inl ⟨hmem, hm⟩)
      · exact Or.inr (Or.inr ⟨hmem, hcol⟩)
    · rintro (hx | (⟨hmem, hm⟩ | ⟨hmem, hcol⟩))
      · exact Or.inl (Or.inl hx)
      · exact Or.inl (Or.inr ⟨hmem, hm⟩)
      · exact Or.inr ⟨hmem, hcol⟩
  · intro q
    rw [hC2, foldl_addTable_columns]

theorem mem_entityFold (tok_list : List Token) :
    ∀ (c : Components),
      (∀ x, x ∈ (tok_list.foldl entityStepToken c).tables ↔
        x ∈ c.tables ∨ ∃ tok ∈ tok_list, (x ∈ tableNames ∧ tableMatchTok tok x = true) ∨
          (x ∈ tableNames ∧ ∃ col ∈ tableColumns x, colMatchTok tok col = true)) ∧
      (∀ q, q ∈ (tok_list.foldl entityStepToken c).columns ↔
        q ∈ c.columns ∨ ∃ tok ∈ tok_list, ∃ tb ∈ tableNames, ∃ col ∈ tableColumns tb,
          colMatchTok tok col = true ∧ q = tb ++ "." ++ col) := by
  induction tok_list with
  | nil => simp
  | cons tok toks ih =>
    intro c
    rw [List.foldl_cons]
    obtain ⟨ihT, ihC⟩ := ih (entityStepToken c tok)
    obtain ⟨hT, hC⟩ := mem_entityStepToken c tok
    constructor
    · intro x
      rw [ihT, hT]
      constructor
      · rintro ((hx | hm) | ⟨tok', htok', hm⟩)
        · exact Or.inl hx
        · exact Or.inr ⟨tok, List.mem_cons_self _ _, hm⟩
        · exact Or.inr ⟨tok', List.mem_cons_of_mem _ htok', hm⟩
      · rintro (hx | ⟨tok', hmem, hm⟩)
        · exact Or.inl (Or.inl hx)
        · rcases List.mem_cons.mp hmem with rfl | hx
          · exact Or.inl (Or.inr hm)
          · exact Or.inr ⟨tok', hx, hm⟩
    · intro q
      rw [ihC, hC]
      constructor
      · rintro ((hq | hm) | ⟨tok', htok', hm⟩)
        · exact Or.inl hq
        · exact Or.inr ⟨tok, List.mem_cons_self _ _, hm⟩
        · exact Or.inr ⟨tok', List.mem_cons_of_mem _ htok', hm⟩
      · rintro (hq | ⟨tok', hmem, hm⟩)
        · exact Or.inl (Or.inl hq)
        · rcases List.mem_cons.mp hmem with rfl | hx
          · exact Or.inl (Or.inr hm)
          · exact Or.inr ⟨tok', hx, hm⟩

theorem mem_entityMatches_tables (doc : Doc) (x : String) :
    x ∈ (entityMatches doc emptyComponents).tables ↔
      ∃ tok ∈ doc.tokens, (x ∈ tableNames ∧ tableMatchTok tok x = true) ∨
        (x ∈ tableNames ∧ ∃ col ∈ tableColumns x, colMatchTok tok col = true) := by
  unfold entityMatches
  rw [(mem_entityFold doc.tokens emptyComponents).1 x]
  simp [emptyComponents]

theorem mem_entityMatches_columns (doc : Doc) (q : String) :
    q ∈ (entityMatches doc emptyComponents).columns ↔
      ∃ tok ∈ doc.tokens, ∃ tb ∈ tableNames, ∃ col ∈ tableColumns tb,
        colMatchTok tok col = true ∧ q = tb ++ "." ++ col := by
  unfold entityMatches
  rw [(mem_entityFold doc.tokens emptyComponents).2 q]
  simp [emptyComponents]

/-! ## Builder lemmas -/

theorem strAppendEmpty (s : String) : s ++ "" = s := by
  apply String.ext
  rw [String.data_append]
  exact List.append_nil _

theorem exists_tail_if (q x : String) (b : Prop) [Decidable b] :
    ∃ T, (if b then q else q ++ x) = q ++ T := by
  split
  · exact ⟨"", (strAppendEmpty q).symm⟩
  · exact ⟨x, rfl⟩

theorem renderCondition_between_error {cond : Condition} (hop : cond.operator = "between")
    (hval : strContains cond.value "and" = false) :
    renderCondition cond = Except.error "list index out of range" := by
  unfold renderCondition
  rw [hop, if_neg (by decide), if_neg (by decide), if_neg (by decide), if_pos rfl]
  have hsplit : pySplitStr cond.value "and" = [cond.value] := by
    unfold pySplitStr
    rw [pySplitL_no_occurrence hval]
    rfl
  rw [hsplit]

theorem buildWhere_error {conds : List Condition}
    (h : ∃ cond ∈ conds, cond.operator = "between" ∧ strContains cond.value "and" = false) :
    ∃ e, buildWhere conds = Except.error e := by
  induction conds with
  | nil =>
    obtain ⟨cond, hc, _⟩ := h
    cases hc
  | cons cnd rest ih =>
    obtain ⟨cond, hc, hop, hval⟩ := h
    rcases List.mem_cons.mp hc with rfl | hcr
    · exact ⟨"list index out of range",
        by simp only [buildWhere, renderCondition_between_error hop hval]⟩
    · cases hr : renderCondition cnd with
      | error e => exact ⟨e, by simp only [buildWhere, hr]⟩
      | ok r =>
        obtain ⟨e, he⟩ := ih ⟨cond, hcr, hop, hval⟩
        exact ⟨e, by simp only [buildWhere, hr, he]⟩

theorem buildJoins_error {anchor : String} :
    ∀ {rest : List String}, (∃ b ∈ rest, table_relationships anchor b = none) →
      ∃ e, buildJoins anchor rest = Except.error e := by
  intro rest
  induction rest with
  | nil =>
    rintro ⟨b, hb, _⟩
    cases hb
  | cons t ts ih =>
    rintro ⟨b, hb, hrel⟩
    cases h : table_relationships anchor t with
    | none => exact ⟨"KeyError: " ++ t, by simp only [buildJoins, h]⟩
    | some ji =>
      rcases List.mem_cons.mp hb with rfl | hbts
      · rw [h] at hrel
        cases hrel
      · obtain ⟨e, he⟩ := ih ⟨b, hbts, hrel⟩
        exact ⟨e, by simp only [buildJoins, h, he]⟩

theorem build_nil (c : Components) (cE : List String) :
    build_sql_query c [] cE = Except.error "list index out of range" := rfl

theorem build_error_of_joins {c : Components} {t0 : String} {rest cE : List String} {e : String}
    (h : buildJoins t0 rest = Except.error e) :
    build_sql_query c (t0 :: rest) cE = Except.error e := by
  simp only [build_sql_query, h]

theorem buildWhereStep_error {c : Components} {q1 e : String}
    (hw : c.whereConds ≠ []) (he : buildWhere c.whereConds = Except.error e) :
    buildWhereStep c q1 = Except.error e := by
  simp only [buildWhereStep, if_neg hw, he]

theorem build_error_of_whereStep {c : Components} {t0 : String} {rest cE : List String}
    {j : String} {e : String} (hj : buildJoins t0 rest = Except.ok j)
    (hw : ∀ q1, buildWhereStep c q1 = Except.error e) :
    build_sql_query c (t0 :: rest) cE = Except.error e := by
  simp only [build_sql_query, hj, hw]

theorem convert_error_of_build {doc : Doc} {tE cE : List String} {e : String}
    (h : build_sql_query (parse_query doc) tE cE = Except.error e) :
    convert_to_sql doc tE cE = Except.error ("Failed to convert text to SQL: " ++ e) := by
  unfold convert_to_sql
  rw [h]

theorem convert_ok_iff {doc : Doc} {tE cE : List String} {s : String} :
    convert_to_sql doc tE cE = Except.ok s ↔
      build_sql_query (parse_query doc) tE cE = Except.ok s := by
  unfold convert_to_sql
  cases h : build_sql_query (parse_query doc) tE cE <;> simp [h]

theorem tail_chain {q q' : String} (h : ∃ T, q' = q ++ T) (b : Prop) [Decidable b]
    (x : String) : ∃ T, (if b then q' else q' ++ x) = q ++ T := by
  obtain ⟨T, hT⟩ := h
  split
  · exact ⟨T, hT⟩
  · exact ⟨T ++ x, by rw [hT, String.append_assoc]⟩

theorem buildTail_exists_tail (c : Components) (q2 : String) :
    ∃ T, buildTail c q2 = q2 ++ T := by
  unfold buildTail
  dsimp only
  have h3 := exists_tail_if q2 ("GROUP BY " ++ String.intercalate ", " c.groupBy ++ "\n")
    (c.groupBy = [])
  have h4 := tail_chain h3 (c.having = [])
    ("HAVING " ++ String.intercalate " AND " c.having ++ "\n")
  have h5 := tail_chain h4 (c.orderBy = [])
    ("ORDER BY " ++
      String.intercalate ", " (c.orderBy.map (fun o => o.column ++ " " ++ o.direction)) ++ "\n")
  cases hl : c.limit with
  | none => exact h5
  | some n =>
    dsimp only
    by_cases hn : n = 0
    · rw [if_pos hn]
      exact h5
    · rw [if_neg hn]
      obtain ⟨T, hT⟩ := h5
      exact ⟨T ++ ("LIMIT " ++ Nat.repr n), by rw [hT, String.append_assoc]⟩

theorem buildTail_limit {c : Components} (q2 : String) {n : Nat}
    (hl : c.limit = some n) (hn : n ≠ 0) :
    ∃ u, buildTail c q2 = u ++ ("LIMIT " ++ Nat.repr n) := by
  unfold buildTail
  dsimp only
  rw [hl]
  dsimp only
  rw [if_neg hn]
  exact ⟨_, rfl⟩

theorem buildWhereStep_ok {c : Components} {q1 q2 : String}
    (h : buildWhereStep c q1 = Except.ok q2) : ∃ T, q2 = q1 ++ T := by
  unfold buildWhereStep at h
  split at h
  · injection h with h2
    exact ⟨"", by rw [← h2, strAppendEmpty]⟩
  · split at h
    · cases h
    · rename_i conds heq
      injection h with h2
      subst h2
      exact (exists_tail_if q1
        ("WHERE " ++ String.intercalate " AND " conds ++ "\n") (conds = [])).imp
        (fun T hT => hT.symm) |>.imp (fun T hT => hT.symm)

theorem build_ok_decomp {c : Components} {tE cE : List String} {s : String}
    (h : build_sql_query c tE cE = Except.ok s) :
    ∃ t0 rest j q2,
      tE = t0 :: rest ∧ buildJoins t0 rest = Except.ok j ∧
      s = pyStrip (buildTail c q2) ∧
      (∃ T, q2 = (("SELECT " ++ String.intercalate ", "
            (if c.aggregates = [] then cE else c.aggregates.map aggItem) ++ "\n") ++
          "FROM " ++ t0 ++ "\n" ++ j) ++ T) := by
  cases tE with
  | nil => cases (build_nil c cE ▸ h)
  | cons t0 rest =>
    refine ⟨t0, rest, ?_⟩
    cases hj : buildJoins t0 rest with
    | error e => rw [build_error_of_joins hj] at h; cases h
    | ok j =>
      refine ⟨j, ?_⟩
      simp only [build_sql_query, hj] at h
      split at h
      · cases h
      · rename_i q2 hE
        injection h with hs
        exact ⟨q2, rfl, rfl, hs.symm, buildWhereStep_ok hE⟩

/-! ## Further helper lemmas for the claim theorems -/

theorem headNonWs_cons {l : List Char} (h : headNonWs l = true) :
    ∃ a xs, l = a :: xs ∧ a.isWhitespace = false := by
  cases l with
  | nil => cases h
  | cons a xs =>
    refine ⟨a, xs, rfl, ?_⟩
    simpa [headNonWs] using h

theorem headNonWs_append_left {u : List Char} (v : List Char) (h : headNonWs u = true) :
    headNonWs (u ++ v) = true := by
  cases u with
  | nil => cases h
  | cons a xs => exact h

theorem headNonWs_reverse_of_all {l : List Char} (hne : l ≠ [])
    (h : ∀ d ∈ l, d.isWhitespace = false) : headNonWs l.reverse = true := by
  cases hrev : l.reverse with
  | nil => exact absurd (by simpa using congrArg List.reverse hrev) hne
  | cons d ds =>
    have hd : d ∈ l := by
      rw [← List.mem_reverse, hrev]
      simp
    simp [headNonWs, h d hd]

theorem hasSub_pyStrip_mid (u x v : List Char)
    (hx : headNonWs x = true) (hxr : headNonWs x.reverse = true) :
    hasSub x (pyStripL (u ++ (x ++ v))) = true := by
  obtain ⟨a, xs, hhead, ha⟩ := headNonWs_cons hx
  obtain ⟨d, ds, hrev, hd⟩ := headNonWs_cons hxr
  rw [show u ++ (x ++ v) = (u ++ x) ++ v from by simp]
  exact hasSub_pyStripL u x v hhead ha hrev hd

theorem endsWith_pyStrip_end (u x : List Char)
    (hx : headNonWs x = true) (hxr : headNonWs x.reverse = true) :
    endsWithL x (pyStripL (u ++ x)) = true := by
  obtain ⟨a, xs, hhead, ha⟩ := headNonWs_cons hx
  obtain ⟨d, ds, hrev, hd⟩ := headNonWs_cons hxr
  exact endsWithL_pyStripL u x hhead ha hrev hd

theorem perm_of_short {l x : List String} (hlen : l.length ≤ 1) (h : x.Perm l) : x = l := by
  cases l with
  | nil => exact List.length_eq_zero.mp (h.length_eq.trans rfl)
  | cons a rest =>
    cases rest with
    | nil => exact List.perm_singleton.mp h
    | cons b r => simp at hlen

theorem digitChar_not_ws (m : Nat) : (Nat.digitChar m).isWhitespace = false := by
  rcases Nat.lt_or_ge m 16 with h | h
  · interval_cases m <;> rfl
  · have h0 : m ≠ 0 := by omega
    have h1 : m ≠ 1 := by omega
    have h2 : m ≠ 2 := by omega
    have h3 : m ≠ 3 := by omega
    have h4 : m ≠ 4 := by omega
    have h5 : m ≠ 5 := by omega
    have h6 : m ≠ 6 := by omega
    have h7 : m ≠ 7 := by omega
    have h8 : m ≠ 8 := by omega
    have h9 : m ≠ 9 := by omega
    have h10 : m ≠ 10 := by omega
    have h11 : m ≠ 11 := by omega
    have h12 : m ≠ 12 := by omega
    have h13 : m ≠ 13 := by omega
    have h14 : m ≠ 14 := by omega
    have h15 : m ≠ 15 := by omega
    simp [Nat.digitChar, h0, h1, h2, h3, h4, h5, h6, h7, h8, h9, h10, h11, h12, h13, h14, h15]

theorem toDigitsCore_shape (fuel n : Nat) (ds : List Char) :
    ∃ r, Nat.toDigitsCore 10 fuel n ds = r ++ ds ∧ (∀ c ∈ r, c.isWhitespace = false) ∧
      (0 < fuel → r ≠ []) := by
  induction fuel generalizing n ds with
  | zero => exact ⟨[], rfl, by simp, by simp⟩
  | succ fuel ih =>
    unfold Nat.toDigitsCore
    by_cases h : n / 10 = 0
    · refine ⟨[Nat.digitChar (n % 10)], by simp [h], ?_, by simp⟩
      intro c hc
      simp at hc
      subst hc
      exact digitChar_not_ws _
    · simp only [h, if_neg h]
      obtain ⟨r, hr, hws, _⟩ := ih (n / 10) (Nat.digitChar (n % 10) :: ds)
      refine ⟨r ++ [Nat.digitChar (n % 10)], by simp [hr], ?_, by simp⟩
      intro c hc
      rcases List.mem_append.1 hc with h1 | h1
      · exact hws c h1
      · simp at h1
        subst h1
        exact digitChar_not_ws _

theorem natRepr_shape (n : Nat) :
    (Nat.repr n).data ≠ [] ∧ ∀ d ∈ (Nat.repr n).data, d.isWhitespace = false := by
  obtain ⟨r, hr, hws, hne⟩ := toDigitsCore_shape (n + 1) n []
  have hdata : (Nat.repr n).data = r := by
    show (Nat.toDigits 10 n).asString.data = r
    rw [show Nat.toDigits 10 n = Nat.toDigitsCore 10 (n + 1) n [] from rfl, hr]
    simp [List.asString]
  rw [hdata]
  exact ⟨hne (Nat.succ_pos n), hws⟩

theorem rel_key2_headNonWs {a b : String} {ji : RelInfo}
    (h : table_relationships a b = some ji) :
    headNonWs ji.keys.2.data = true ∧ headNonWs ji.keys.2.data.reverse = true := by
  unfold table_relationships at h
  split_ifs at h
  all_goals
    first
      | exact Option.noConfusion h
      | (injection h with h2
         subst h2
         exact ⟨by decide, by decide⟩)

theorem build_cols_irrelevant {c : Components} (hagg : c.aggregates ≠ [])
    (tE cE cE' : List String) :
    build_sql_query c tE cE = build_sql_query c tE cE' := by
  simp only [build_sql_query, if_neg hagg]

/-! ## Claim theorems -/

/-- C1 (counterexample): for the input "average salary by department" the
aggregate pass emits TWO aggregates, AVG(employees.department) and
AVG(employees.salary) (the keyword-column cross product also matches the
column word department), so the SELECT clause is not exactly
SELECT AVG(employees.salary) as avg_salary: the claimed select-item list is
refuted and the claimed SELECT text does not occur in the generated SQL. -/
theorem claim1_counterexample :
    (parse_query docAvg).aggregates.map aggItem =
      ["AVG(employees.department) as avg_department",
       "AVG(employees.salary) as avg_salary"] ∧
    ¬((parse_query docAvg).aggregates.map aggItem =
      ["AVG(employees.salary) as avg_salary"]) ∧
    (parse_query docAvg).tables = ["employees", "departments"] ∧
    convert_to_sql docAvg ["employees", "departments"] (parse_query docAvg).columns =
      Except.ok "SELECT AVG(employees.department) as avg_department, AVG(employees.salary) as avg_salary\nFROM employees\nJOIN departments ON employees.department = departments.name\nGROUP BY employees.department" ∧
    strContains "SELECT AVG(employees.department) as avg_department, AVG(employees.salary) as avg_salary\nFROM employees\nJOIN departments ON employees.department = departments.name\nGROUP BY employees.department"
      "SELECT AVG(employees.salary) as avg_salary" = false := by
  refine ⟨?_, ?_, ?_, ?_, ?_⟩ <;> decide

/-- C1 (amended): for "average salary by department" the aggregate pass emits
the cross product AVG(employees.department) and AVG(employees.salary), the
group-by pass emits the qualified column employees.department, and the SELECT
clause lists both aggregate items (the AVG(employees.salary) as avg_salary
item among them). -/
theorem claim1_amended :
    (parse_query docAvg).aggregates =
      [⟨"AVG", "employees.department"⟩, ⟨"AVG", "employees.salary"⟩] ∧
    (parse_query docAvg).groupBy = ["employees.department"] ∧
    convert_to_sql docAvg ["employees", "departments"] (parse_query docAvg).columns =
      Except.ok "SELECT AVG(employees.department) as avg_department, AVG(employees.salary) as avg_salary\nFROM employees\nJOIN departments ON employees.department = departments.name\nGROUP BY employees.department" ∧
    strContains "SELECT AVG(employees.department) as avg_department, AVG(employees.salary) as avg_salary\nFROM employees\nJOIN departments ON employees.department = departments.name\nGROUP BY employees.department"
      "AVG(employees.salary) as avg_salary" = true := by
  refine ⟨?_, ?_, ?_, ?_⟩ <;> decide

/-- C3 (counterexample): the input "show employees with salary over 80000"
(condition phrase attached to the trigger "with") yields the WHERE clause
salary > 80000 with the RAW column text, not the schema-qualified
employees.salary > 80000 the claim requires: the generated SQL contains
"salary > 80000" but not "employees.salary > 80000". -/
theorem claim3_counterexample :
    strContains docCond.text "salary over 80000" = true ∧
    (parse_query docCond).tables = ["employees"] ∧
    (parse_query docCond).columns = ["employees.salary"] ∧
    (parse_query docCond).whereConds = [⟨"salary", "greater", "80000"⟩] ∧
    convert_to_sql docCond ["employees"] ["employees.salary"] =
      Except.ok "SELECT employees.salary\nFROM employees\nWHERE salary > 80000" ∧
    strContains "SELECT employees.salary\nFROM employees\nWHERE salary > 80000"
      "employees.salary > 80000" = false ∧
    strContains "SELECT employees.salary\nFROM employees\nWHERE salary > 80000"
      "salary > 80000" = true := by
  refine ⟨?_, ?_, ?_, ?_, ?_, ?_, ?_⟩ <;> decide

/-- C3 (amended): whenever a condition-trigger token's dependent phrase is
"salary over 80000", the parsed condition is (column "salary",
operator greater, value "80000") - the raw unqualified column text - and it
renders as the WHERE condition "salary > 80000" (operator >, unquoted numeric
literal). -/
theorem claim3_amended (tok : Token)
    (h : String.intercalate " " tok.rights = "salary over 80000") :
    parse_condition_phrase tok = some ⟨"salary", "greater", "80000"⟩ ∧
    renderCondition ⟨"salary", "greater", "80000"⟩ =
      Except.ok (some "salary > 80000") := by
  constructor
  · unfold parse_condition_phrase
    rw [h]
    decide
  · decide

/-- C3 (witness for the amended claim), at a concrete trigger token. -/
theorem claim3_amended_witness :
    parse_condition_phrase ⟨"with", "prep", ["salary", "over", "80000"]⟩ =
      some ⟨"salary", "greater", "80000"⟩ ∧
    renderCondition ⟨"salary", "greater", "80000"⟩ =
      Except.ok (some "salary > 80000") :=
  claim3_amended ⟨"with", "prep", ["salary", "over", "80000"]⟩ (by decide)

/-- C4 (counterexample): for the input "sort by name desc" the ordering pass
appends one entry per table containing the matched column name, producing
THREE order-by entries, refuting "at most one order-by entry". -/
theorem claim4_counterexample :
    (parse_query docSort).orderBy =
      [⟨"employees.name", "DESC"⟩, ⟨"departments.name", "DESC"⟩,
       ⟨"projects.name", "DESC"⟩] ∧
    ¬((parse_query docSort).orderBy.length ≤ 1) := by
  refine ⟨?_, ?_⟩ <;> decide

/-- C4 (amended): at most one regex match is used (the leftmost), but the pass
appends one entry for every table containing the matched column word, so up
to three (length of the table list) entries result; every entry carries the
matched column qualified by some table containing it, and its direction is
DESC exactly when the trailing modifier contains "desc", otherwise ASC. -/
theorem claim4_amended (doc : Doc) (e : OrderItem)
    (he : e ∈ (parse_query doc).orderBy) :
    (∃ col m, orderSearch (pyLower doc.text) = some (col, m) ∧
      (∃ tb ∈ tableNames, col ∈ tableColumns tb ∧ e.column = tb ++ "." ++ col) ∧
      e.direction = (match m with
        | some g => if strContains g "desc" then "DESC" else "ASC"
        | none => "ASC")) ∧
    (parse_query doc).orderBy.length ≤ tableNames.length := by
  rw [parse_query_orderBy] at he ⊢
  constructor
  · cases hs : orderSearch (pyLower doc.text) with
    | none =>
      rw [hs] at he
      cases he
    | some r =>
      obtain ⟨col, m⟩ := r
      rw [hs] at he
      obtain ⟨tb, htb, rfl⟩ := List.mem_map.mp he
      obtain ⟨htbn, hcol⟩ := List.mem_filter.mp htb
      exact ⟨col, m, rfl, ⟨tb, htbn, by simpa using hcol, rfl⟩, rfl⟩
  · cases hs : orderSearch (pyLower doc.text) with
    | none => simp
    | some r =>
      obtain ⟨col, m⟩ := r
      calc ((tableNames.filter (fun tb => col ∈ tableColumns tb)).map
              (fun tb => OrderItem.mk (tb ++ "." ++ col) _)).length
          = (tableNames.filter (fun tb => col ∈ tableColumns tb)).length :=
            List.length_map _ _
        _ ≤ tableNames.length := List.length_filter_le _ _

/-- C4 (witness for the amended claim), at the entry employees.name DESC of
the input "sort by name desc". -/
theorem claim4_amended_witness :
    (⟨"employees.name", "DESC"⟩ : OrderItem) ∈ (parse_query docSort).orderBy ∧
    ((∃ col m, orderSearch (pyLower docSort.text) = some (col, m) ∧
      (∃ tb ∈ tableNames, col ∈ tableColumns tb ∧
        ("employees.name" : String) = tb ++ "." ++ col) ∧
      ("DESC" : String) = (match m with
        | some g => if strContains g "desc" then "DESC" else "ASC"
        | none => "ASC")) ∧
    (parse_query docSort).orderBy.length ≤ tableNames.length) :=
  ⟨by decide, claim4_amended docSort ⟨"employees.name", "DESC"⟩ (by decide)⟩

/-- C5 (counterexample): translating "average salary by department" with two
different set-enumeration orders - both permutations of the accumulated table
set, as happens across interpreter runs with different hash seeds - yields
different SQL bytes (different anchor table and join direction), so the
translation is not deterministic in the input text and schema alone. -/
theorem claim5_counterexample :
    List.Perm ["employees", "departments"] (parse_query docAvg).tables ∧
    List.Perm ["departments", "employees"] (parse_query docAvg).tables ∧
    convert_to_sql docAvg ["employees", "departments"] (parse_query docAvg).columns ≠
      convert_to_sql docAvg ["departments", "employees"] (parse_query docAvg).columns := by
  refine ⟨?_, ?_, ?_⟩ <;> decide

/-- C5 (amended): the translation is a function of the input text and the two
set-enumeration orders only; it is byte-identical across two runs whenever the
enumeration orders cannot differ, namely when the intent has at most one table
and the SELECT list is not enumeration-dependent (at most one column, or
aggregates present so the column set is ignored). -/
theorem claim5_amended (doc : Doc) (tE tE' cE cE' : List String)
    (h1 : tE.Perm (parse_query doc).tables) (h2 : tE'.Perm (parse_query doc).tables)
    (h3 : cE.Perm (parse_query doc).columns) (h4 : cE'.Perm (parse_query doc).columns)
    (htab : (parse_query doc).tables.length ≤ 1)
    (hsel : (parse_query doc).columns.length ≤ 1 ∨ (parse_query doc).aggregates ≠ []) :
    convert_to_sql doc tE cE = convert_to_sql doc tE' cE' := by
  rw [perm_of_short htab h1, perm_of_short htab h2]
  rcases hsel with hcols | hagg
  · rw [perm_of_short hcols h3, perm_of_short hcols h4]
  · unfold convert_to_sql
    rw [build_cols_irrelevant hagg _ cE cE']

/-- C5 (witness for the amended claim): the single-table aggregate query
"average salary" translates identically under the forced enumerations. -/
theorem claim5_amended_witness :
    convert_to_sql docAvgSalary ["employees"] ["employees.salary"] =
      convert_to_sql docAvgSalary ["employees"] ["employees.salary"] :=
  claim5_amended docAvgSalary ["employees"] ["employees"]
    ["employees.salary"] ["employees.salary"]
    (by decide) (by decide) (by decide) (by decide) (by decide) (Or.inl (by decide))

/-- C6 (counterexample): for the token "salar", whose text is a substring of
the column name salary (but not conversely), the claimed bidirectional column
match would add employees.salary, but the code's one-directional test
(column.lower() in token.text.lower(), helper.py line 149) adds nothing. -/
theorem claim6_counterexample :
    strContains "salary" "salar" = true ∧
    (entityMatches docSalar emptyComponents).columns = [] ∧
    (entityMatches docSalar emptyComponents).tables = [] ∧
    (entityMatchesSpec docSalar emptyComponents).columns = ["employees.salary"] ∧
    (entityMatchesSpec docSalar emptyComponents).tables = ["employees"] := by
  refine ⟨?_, ?_, ?_, ?_, ?_⟩ <;> decide

/-- C6 (amended): entity extraction performs the bidirectional
case-insensitive substring match for TABLE names only; for column names the
match is one-directional (the column name must occur inside the token text).
A table match adds the table; a column match adds the qualified table.column
and its table. -/
theorem claim6_amended (doc : Doc) :
    (∀ tb, tb ∈ (entityMatches doc emptyComponents).tables ↔
      ∃ tok ∈ doc.tokens, (tb ∈ tableNames ∧ tableMatchTok tok tb = true) ∨
        (tb ∈ tableNames ∧ ∃ col ∈ tableColumns tb, colMatchTok tok col = true)) ∧
    (∀ q, q ∈ (entityMatches doc emptyComponents).columns ↔
      ∃ tok ∈ doc.tokens, ∃ tb ∈ tableNames, ∃ col ∈ tableColumns tb,
        colMatchTok tok col = true ∧ q = tb ++ "." ++ col) :=
  ⟨fun tb => mem_entityMatches_tables doc tb, fun q => mem_entityMatches_columns doc q⟩

/-- C6 (witness for the amended claim), instantiated at the doc for
"show employees with salary over 80000" and the table employees. -/
theorem claim6_amended_witness :
    ("employees" ∈ (entityMatches docCond emptyComponents).tables ↔
      ∃ tok ∈ docCond.tokens, ("employees" ∈ tableNames ∧ tableMatchTok tok "employees" = true) ∨
        ("employees" ∈ tableNames ∧
          ∃ col ∈ tableColumns "employees", colMatchTok tok col = true)) :=
  (claim6_amended docCond).1 "employees"

/-- C2: for an intent whose table enumeration is exactly two distinct tables
with a declared relationship edge, the JOIN loop emits exactly one JOIN
clause, of the form JOIN t ON anchor.keyLeft = t.keyRight with the declared
keys in the declared direction, and any successfully built SQL string
contains it; for an intent requiring a join with a table having no declared
relationship edge, building fails with an error (the KeyError of the
undeclared lookup, the spec's UndeclaredRelationshipError) and convert_to_sql
surfaces every build error to the caller as a ValueError message instead of a
SQL string. -/
theorem claim2_join_behavior :
    (∀ a b ji, table_relationships a b = some ji →
      buildJoins a [b] = Except.ok (joinClause a b ji ++ "\n" ++ "")) ∧
    (∀ (c : Components) (cE : List String) a b ji s, table_relationships a b = some ji →
      build_sql_query c [a, b] cE = Except.ok s →
      strContains s (joinClause a b ji) = true) ∧
    (∀ (c : Components) (cE : List String) a rest,
      (∃ b ∈ rest, table_relationships a b = none) →
      ∃ e, build_sql_query c (a :: rest) cE = Except.error e) ∧
    (∀ (doc : Doc) (tE cE : List String) e,
      build_sql_query (parse_query doc) tE cE = Except.error e →
      convert_to_sql doc tE cE = Except.error ("Failed to convert text to SQL: " ++ e)) := by
  refine ⟨?_, ?_, ?_, ?_⟩
  · intro a b ji hrel
    simp only [buildJoins, hrel, joinClause]
  · intro c cE a b ji s hrel hbuild
    obtain ⟨t0, rest, j, q2, htE, hj, hs, T, hq2⟩ := build_ok_decomp hbuild
    obtain ⟨h1, h2⟩ := List.cons.inj htE
    subst h1
    have h2' : rest = [b] := h2.symm
    subst h2'
    simp only [buildJoins, hrel] at hj
    injection hj with hj2
    obtain ⟨T5, hT5⟩ := buildTail_exists_tail c q2
    have hXhead : headNonWs (joinClause a b ji).data = true := by
      have hXd : (joinClause a b ji).data = "JOIN ".data ++ (b.data ++ (" ON ".data ++
          (a.data ++ (".".data ++ (ji.keys.1.data ++ (" = ".data ++ (b.data ++
            (".".data ++ ji.keys.2.data)))))))) := by
        simp [joinClause, String.data_append, List.append_assoc]
      rw [hXd]
      exact headNonWs_append_left _ (by decide)
    have hXrev : headNonWs (joinClause a b ji).data.reverse = true := by
      have hXd : (joinClause a b ji).data = ("JOIN " ++ b ++ " ON " ++ a ++ "." ++
          ji.keys.1 ++ " = " ++ b ++ ".").data ++ ji.keys.2.data := by
        simp [joinClause, String.data_append, List.append_assoc]
      rw [hXd, List.reverse_append]
      exact headNonWs_append_left _ (rel_key2_headNonWs hrel).2
    rw [hs, hT5, hq2, ← hj2]
    have key := hasSub_pyStrip_mid
      ((("SELECT " ++ String.intercalate ", "
          (if c.aggregates = [] then cE else c.aggregates.map aggItem) ++ "\n") ++
        "FROM " ++ a ++ "\n")).data
      (joinClause a b ji).data
      ("\n" ++ "" ++ T ++ T5).data hXhead hXrev
    unfold strContains pyStrip
    dsimp only
    convert key using 3
    simp [joinClause, String.data_append, List.append_assoc]
  · intro c cE a rest hb
    obtain ⟨e, he⟩ := buildJoins_error hb
    exact ⟨e, build_error_of_joins he⟩
  · intro doc tE cE e h
    exact convert_error_of_build h

/-- C2 (witness): the declared edge employees-departments yields exactly the
one declared JOIN clause, and an undeclared pair fails with an error. -/
theorem claim2_join_behavior_witness :
    buildJoins "employees" ["departments"] =
      Except.ok (joinClause "employees" "departments"
        ⟨"many_to_one", none, ("department", "name")⟩ ++ "\n" ++ "") ∧
    (∃ e, build_sql_query emptyComponents ("employees" :: ["widgets"]) [] =
      Except.error e) :=
  ⟨claim2_join_behavior.1 "employees" "departments"
      ⟨"many_to_one", none, ("department", "name")⟩ (by decide),
   claim2_join_behavior.2.2.1 emptyComponents [] "employees" ["widgets"]
      ⟨"widgets", by decide, by decide⟩⟩

theorem dropWhile_eq_self_of_headNonWs {u : List Char} (hu : headNonWs u = true) :
    u.dropWhile Char.isWhitespace = u := by
  cases u with
  | nil => rfl
  | cons a as =>
    have ha : a.isWhitespace = false := by simpa [headNonWs] using hu
    simp [List.dropWhile_cons, ha]

theorem pyStripL_drop_newline (u x : List Char)
    (hu : headNonWs u = true) (hx : headNonWs x = true) (hxr : headNonWs x.reverse = true) :
    pyStripL ((u ++ x) ++ ['\n']) = u ++ x := by
  obtain ⟨a, xs, hhead, ha⟩ := headNonWs_cons hx
  obtain ⟨d, ds, hrev, hd⟩ := headNonWs_cons hxr
  rw [pyStripL_decomp u x ['\n'] hhead ha hrev hd, dropWhile_eq_self_of_headNonWs hu,
    trimRightL_ws_nil, List.append_nil]

/-- C7: for a doc in which entity matching finds exactly one table and no
column, and no condition, aggregate, group-by, order or limit trigger fires,
the select-all fallback fills the column set with every declared column of
that table (qualified), and the builder emits exactly
SELECT (enumerated columns) FROM (table) - no JOIN, WHERE, GROUP BY, HAVING,
ORDER BY or LIMIT clause. -/
theorem claim7_select_all (doc : Doc) (t : String) (tE cE : List String)
    (htab : (entityMatches doc emptyComponents).tables = [t])
    (hcols : (entityMatches doc emptyComponents).columns = [])
    (hcond : ∀ tok ∈ doc.tokens, condTrigger tok = false)
    (hagg : ∀ p ∈ aggregatePatterns, ∀ pat ∈ p.2, strContains (pyLower doc.text) pat = false)
    (hgb : ∀ w ∈ scanBy (pyLower doc.text), ∀ tb ∈ tableNames, w ∉ tableColumns tb)
    (hord : orderSearch (pyLower doc.text) = none)
    (hlim : limitSearch (pyLower doc.text) = none)
    (htE : tE.Perm [t])
    (hcE : cE.Perm ((tableColumns t).map (fun col => t ++ "." ++ col))) :
    (parse_query doc).columns = (tableColumns t).map (fun col => t ++ "." ++ col) ∧
    convert_to_sql doc tE cE =
      Except.ok ("SELECT " ++ String.intercalate ", " cE ++ "\nFROM " ++ t) := by
  have htmem : t ∈ tableNames := by
    have hmem : t ∈ (entityMatches doc emptyComponents).tables := by
      rw [htab]
      simp
    rcases (mem_entityMatches_tables doc t).mp hmem with ⟨tok, _, (⟨h, _⟩ | ⟨h, _⟩)⟩ <;>
      exact h
  have hTE : tE = [t] := perm_of_short (by simp) htE
  subst hTE
  have hempty : (entityMatches doc emptyComponents).columns.isEmpty = true := by
    rw [hcols]
    rfl
  have hents_tables : (extract_entities doc emptyComponents).tables = [t] := by
    unfold extract_entities
    dsimp only
    rw [if_pos hempty]
    exact htab
  have hcases : t = "employees" ∨ t = "departments" ∨ t = "projects" := by
    simpa [tableNames] using htmem
  have hents_cols : (extract_entities doc emptyComponents).columns =
      (tableColumns t).map (fun col => t ++ "." ++ col) := by
    unfold extract_entities
    dsimp only
    rw [if_pos hempty]
    show (entityMatches doc emptyComponents).tables.foldl _
      (entityMatches doc emptyComponents).columns = _
    rw [htab, hcols]
    rcases hcases with rfl | rfl | rfl <;> decide
  have hw : (parse_query doc).whereConds = [] := by
    rw [parse_query_whereConds]
    exact conds_fold_noop hcond []
  have hag : (parse_query doc).aggregates = [] := by
    rw [parse_query_aggregates]
    exact agg_fold_noop hagg []
  have hg : (parse_query doc).groupBy = [] := by
    rw [parse_query_groupBy]
    exact groupBy_fold_noop hgb []
  have hob : (parse_query doc).orderBy = [] := by
    rw [parse_query_orderBy, hord]
  have hlm : (parse_query doc).limit = none := by
    rw [parse_query_limit, hlim]
  have hhv : (parse_query doc).having = [] := parse_query_having doc
  have hpc : (parse_query doc).columns = (tableColumns t).map (fun col => t ++ "." ++ col) := by
    rw [parse_query_columns]
    exact hents_cols
  refine ⟨hpc, ?_⟩
  have hws : buildWhereStep (parse_query doc)
      (("SELECT " ++ String.intercalate ", " cE ++ "\n") ++ "FROM " ++ t ++ "\n" ++ "") =
      Except.ok (("SELECT " ++ String.intercalate ", " cE ++ "\n") ++
        "FROM " ++ t ++ "\n" ++ "") := by
    unfold buildWhereStep
    rw [if_pos hw]
  have htail : buildTail (parse_query doc)
      (("SELECT " ++ String.intercalate ", " cE ++ "\n") ++ "FROM " ++ t ++ "\n" ++ "") =
      (("SELECT " ++ String.intercalate ", " cE ++ "\n") ++ "FROM " ++ t ++ "\n" ++ "") := by
    unfold buildTail
    dsimp only
    rw [hg, hhv, hob, hlm]
    simp
  have hbuild : build_sql_query (parse_query doc) [t] cE =
      Except.ok (pyStrip (("SELECT " ++ String.intercalate ", " cE ++ "\n") ++
        "FROM " ++ t ++ "\n" ++ "")) := by
    simp only [build_sql_query, hag, if_pos]
    rw [show buildJoins t [] = Except.ok "" from rfl]
    dsimp only
    rw [hws]
    dsimp only
    rw [htail]
  show convert_to_sql doc [t] cE = _
  unfold convert_to_sql
  rw [hbuild]
  have hfinal : pyStrip (("SELECT " ++ String.intercalate ", " cE ++ "\n") ++
      "FROM " ++ t ++ "\n" ++ "") = "SELECT " ++ String.intercalate ", " cE ++ "\nFROM " ++ t := by
    apply String.ext
    show pyStripL ((("SELECT " ++ String.intercalate ", " cE ++ "\n") ++
      "FROM " ++ t ++ "\n" ++ "").data) = _
    have hu : headNonWs ("SELECT ".data ++
        ((String.intercalate ", " cE).data ++ ("\n".data ++ "FROM ".data))) = true :=
      headNonWs_append_left _ (by decide)
    have hx : headNonWs t.data = true := by
      rcases hcases with rfl | rfl | rfl <;> decide
    have hxr : headNonWs t.data.reverse = true := by
      rcases hcases with rfl | rfl | rfl <;> decide
    have hflat : (("SELECT " ++ String.intercalate ", " cE ++ "\n") ++
        "FROM " ++ t ++ "\n" ++ "").data =
        (("SELECT ".data ++ ((String.intercalate ", " cE).data ++
          ("\n".data ++ "FROM ".data))) ++ t.data) ++ ['\n'] := by
      simp [String.data_append, List.append_assoc,
        show "\n".data = ['\n'] from rfl, show ("" : String).data = [] from rfl]
    rw [hflat, pyStripL_drop_newline _ _ hu hx hxr]
    simp [String.data_append, List.append_assoc,
      show ("\nFROM " : String).data = '\n' :: "FROM ".data from rfl,
      show "\n".data = ['\n'] from rfl]
  rw [hfinal]

/-- C7 (witness): the input "show employees" selects all seven employees
columns and builds a bare SELECT-FROM query. -/
theorem claim7_select_all_witness :
    (parse_query docShow).columns =
      ["employees.employee_id", "employees.name", "employees.department",
       "employees.salary", "employees.hire_date", "employees.role", "employees.email"] ∧
    convert_to_sql docShow ["employees"]
      ["employees.employee_id", "employees.name", "employees.department",
       "employees.salary", "employees.hire_date", "employees.role", "employees.email"] =
      Except.ok "SELECT employees.employee_id, employees.name, employees.department, employees.salary, employees.hire_date, employees.role, employees.email\nFROM employees" := by
  have h := claim7_select_all docShow "employees" ["employees"]
    ["employees.employee_id", "employees.name", "employees.department",
     "employees.salary", "employees.hire_date", "employees.role", "employees.email"]
    (by decide) (by decide) (by decide) (by decide) (by decide) (by decide) (by decide)
    (by decide) (by decide)
  refine ⟨by rw [h.1]; decide, ?_⟩
  rw [h.2]
  decide

/-- C8: whenever the limit regex finds an integer n > 0 in the (lower-cased)
input text and the translation succeeds, the generated SQL ends with the
clause LIMIT n, with n rendered exactly as matched. -/
theorem claim8_limit (doc : Doc) (tE cE : List String) (n : Nat) (s : String)
    (h1 : limitSearch (pyLower doc.text) = some n) (h2 : 0 < n)
    (h3 : convert_to_sql doc tE cE = Except.ok s) :
    strEndsWith s ("LIMIT " ++ Nat.repr n) = true := by
  have hb := convert_ok_iff.mp h3
  obtain ⟨t0, rest, j, q2, htE, hj, hs, T, hq2⟩ := build_ok_decomp hb
  have hlim : (parse_query doc).limit = some n := by
    rw [parse_query_limit, h1]
  obtain ⟨u, hu⟩ := buildTail_limit q2 hlim (Nat.pos_iff_ne_zero.mp h2)
  rw [hs, hu]
  show endsWithL ("LIMIT " ++ Nat.repr n).data
    (pyStripL ((u ++ ("LIMIT " ++ Nat.repr n)).data)) = true
  rw [String.data_append]
  apply endsWith_pyStrip_end
  · simp only [String.data_append]
    exact headNonWs_append_left _ (by decide)
  · simp only [String.data_append, List.reverse_append]
    obtain ⟨hne, hws⟩ := natRepr_shape n
    exact headNonWs_append_left _ (headNonWs_reverse_of_all hne hws)

/-- C8 (witness): "show top 5 employees" yields SQL ending in LIMIT 5. -/
theorem claim8_limit_witness :
    strEndsWith "SELECT employees.employee_id, employees.name, employees.department, employees.salary, employees.hire_date, employees.role, employees.email\nFROM employees\nLIMIT 5"
      ("LIMIT " ++ Nat.repr 5) = true :=
  claim8_limit
    ⟨"show top 5 employees",
     [⟨"show", "ROOT", []⟩, ⟨"top", "amod", []⟩, ⟨"5", "nummod", []⟩,
      ⟨"employees", "dobj", []⟩]⟩
    ["employees"]
    ["employees.employee_id", "employees.name", "employees.department",
     "employees.salary", "employees.hire_date", "employees.role", "employees.email"]
    5 _ (by decide) (by decide) (by decide)

/-- C9: the four optional extraction passes leave their intent field empty
when their trigger is absent (and raise nothing - they are total), and when
entity extraction identifies no table the whole translation call surfaces a
ValueError with a descriptive message instead of returning a SQL string. -/
theorem claim9_propagation (doc : Doc) (tE cE : List String) :
    ((∀ tok ∈ doc.tokens, condTrigger tok = false) → (parse_query doc).whereConds = []) ∧
    ((∀ p ∈ aggregatePatterns, ∀ pat ∈ p.2, strContains (pyLower doc.text) pat = false) →
      (parse_query doc).aggregates = []) ∧
    (orderSearch (pyLower doc.text) = none → (parse_query doc).orderBy = []) ∧
    (limitSearch (pyLower doc.text) = none → (parse_query doc).limit = none) ∧
    ((parse_query doc).tables = [] → tE.Perm (parse_query doc).tables →
      convert_to_sql doc tE cE =
        Except.error ("Failed to convert text to SQL: " ++ "list index out of range")) := by
  refine ⟨?_, ?_, ?_, ?_, ?_⟩
  · intro h
    rw [parse_query_whereConds]
    exact conds_fold_noop h []
  · intro h
    rw [parse_query_aggregates]
    exact agg_fold_noop h []
  · intro h
    rw [parse_query_orderBy, h]
  · intro h
    rw [parse_query_limit, h]
  · intro htab hperm
    rw [htab] at hperm
    have hnil : tE = [] := List.length_eq_zero.mp (by simpa using hperm.length_eq)
    subst hnil
    exact convert_error_of_build (build_nil _ _)

/-- C9 (witness): the input "hello" matches nothing; every optional field is
empty and the translation fails with the wrapped IndexError message. -/
theorem claim9_propagation_witness :
    (parse_query docHello).whereConds = [] ∧ (parse_query docHello).aggregates = [] ∧
    (parse_query docHello).orderBy = [] ∧ (parse_query docHello).limit = none ∧
    convert_to_sql docHello [] [] =
      Except.error ("Failed to convert text to SQL: " ++ "list index out of range") := by
  obtain ⟨h1, h2, h3, h4, h5⟩ := claim9_propagation docHello [] []
  exact ⟨h1 (by decide), h2 (by decide), h3 (by decide), h4 (by decide),
    h5 (by decide) (by decide)⟩

/-- C10: an intent containing a BETWEEN condition whose value string does not
contain the substring "and" makes the whole build fail (the two BETWEEN
bounds cannot be produced: values[1] raises IndexError), rather than
discarding the condition or emitting SQL without it. -/
theorem claim10_bad_between (c : Components) (tE cE : List String) (cond : Condition)
    (hmem : cond ∈ c.whereConds) (hop : cond.operator = "between")
    (hval : strContains cond.value "and" = false) :
    ∃ e, build_sql_query c tE cE = Except.error e := by
  cases tE with
  | nil => exact ⟨_, build_nil c cE⟩
  | cons t0 rest =>
    cases hj : buildJoins t0 rest with
    | error e => exact ⟨e, build_error_of_joins hj⟩
    | ok j =>
      obtain ⟨e, he⟩ := buildWhere_error ⟨cond, hmem, hop, hval⟩
      have hw : c.whereConds ≠ [] := List.ne_nil_of_mem hmem
      exact ⟨e, build_error_of_whereStep hj (fun q1 => buildWhereStep_error hw he)⟩

/-- C10 (witness): a BETWEEN condition with value "70000 to 90000" (no "and")
makes the build fail. -/
theorem claim10_bad_between_witness :
    ∃ e, build_sql_query badBetweenComponents ["employees"] [] = Except.error e :=
  claim10_bad_between badBetweenComponents ["employees"] []
    ⟨"salary", "between", "70000 to 90000"⟩ (by decide) rfl (by decide)
